import Mathlib

/-!
Shallow embedding of the kinship-graph engine of the `gedcom-mcp` server
(`src/gedcom_server/core.py`, `src/gedcom_server/associates.py`,
`src/gedcom_server/models.py`), together with proofs settling the frozen
claims about it.

Modelling conventions:
* Python `dict`s (which iterate in insertion order) are modelled as
  association lists `List (String × α)`; `dict.get` is first-match lookup.
* Python `set` iteration order is hash-dependent; wherever the source
  iterates a set built from dict keys we iterate in the insertion order of
  the underlying dict.  All results proved below are insensitive to this
  choice, and within one process the source, too, sees a single fixed order.
* Python machine recursion is replaced by a structural `budget`/fuel
  argument that mirrors the source's own generation guard exactly
  (the source stops when `generation > max_generations`; we start with
  `budget = max_generations` at `generation = 1` and stop at `budget = 0`,
  which is the same condition).
* Python truthiness on optional strings/ints (where `None`, `""` and `0`
  are falsy) is modelled by the explicit helpers below.
-/

namespace GedcomServer

/-- First-match lookup in an association list (Python `dict.get`). -/
def alookup {α : Type} : List (String × α) → String → Option α
  | [], _ => none
  | (k', v) :: rest, k => if k' = k then some v else alookup rest k

/-- Python `key in dict`. -/
def acontains {α : Type} (m : List (String × α)) (k : String) : Bool :=
  (alookup m k).isSome

/-- Python `dict.keys()` (in insertion order). -/
def akeys {α : Type} (m : List (String × α)) : List String := m.map (·.1)

/-- Truthiness of an optional string: `None` and `""` are falsy. -/
def presentId : Option String → Option String
  | none => none
  | some s => if s.isEmpty then none else some s

/-- Python truthiness of an optional int (`None` and `0` are falsy). -/
def truthyNat : Option Nat → Bool
  | none => false
  | some n => n != 0

/-- Python `min` over a list of ints (only ever applied to non-empty lists
in the source; we return 0 on `[]`). -/
def listMin : List Nat → Nat
  | [] => 0
  | h :: t => t.foldl Nat.min h

/-- `models.py` `Event` (the fields the embedded functions consult). -/
structure Event where
  type : String
  date : Option String := none
  place : Option String := none
deriving DecidableEq, Repr

/-- `models.py` `Individual` (the fields the embedded functions consult). -/
structure Individual where
  id : String
  givenName : String := ""
  surname : String := ""
  sex : Option String := none
  birthDate : Option String := none
  birthPlace : Option String := none
  deathDate : Option String := none
  deathPlace : Option String := none
  familyAsChild : Option String := none
  familiesAsSpouse : List String := []
  events : List Event := []
deriving DecidableEq, Repr

/-- `models.py` `Family`. -/
structure Family where
  id : String
  husbandId : Option String := none
  wifeId : Option String := none
  childrenIds : List String := []
  marriageDate : Option String := none
  marriagePlace : Option String := none
deriving DecidableEq, Repr

/-- The read-only graph store (`state.individuals`, `state.families`,
`state.place_index`), handed to every query. -/
structure Graph where
  individuals : List (String × Individual)
  families : List (String × Family)
  placeIndex : List (String × List String) := []

/-- `core._normalize_lookup_id`: strip leading/trailing `@` and re-wrap. -/
def normalizeLookupId (idStr : String) : String :=
  let stripped := String.mk (((idStr.toList.dropWhile (· == '@')).reverse.dropWhile
    (· == '@')).reverse)
  "@" ++ stripped ++ "@"

/-- `Individual.full_name`. -/
def fullName (i : Individual) : String :=
  String.intercalate " " ([i.givenName, i.surname].filter (fun p => !p.isEmpty))

/-- `Individual.to_summary`. -/
structure Summary where
  id : String
  name : String
  birthDate : Option String
  deathDate : Option String
deriving DecidableEq, Repr

def toSummary (i : Individual) : Summary :=
  { id := i.id, name := fullName i, birthDate := i.birthDate, deathDate := i.deathDate }

/-- The source pattern `if indi.family_as_child: fam = families.get(...); if fam:`
(falsy link or missing family both stop the branch). -/
def getFamC (g : Graph) (indi : Individual) : Option Family :=
  match indi.familyAsChild with
  | none => none
  | some famId => if famId.isEmpty then none else alookup g.families famId

/-- Append one generation distance to an ancestor's list, mirroring
`if parent_id not in ancestors: ancestors[parent_id] = []` followed by
`ancestors[parent_id].append(generation)`. -/
def addGen : List (String × List Nat) → String → Nat → List (String × List Nat)
  | [], k, gen => [(k, [gen])]
  | (k', v) :: rest, k, gen =>
    if k' = k then (k', v ++ [gen]) :: rest else (k', v) :: addGen rest k gen

/-- The recursive `traverse` worker of `core._build_ancestor_set`.
`budget = max_generations + 1 - generation` is the remaining generation
budget; `budget = 0` is exactly the source guard `generation > max_generations`. -/
def ancestorTraverse (g : Graph) : Nat → String → Nat → List (String × List Nat) →
    List (String × List Nat)
  | 0, _, _, ancestors => ancestors
  | budget + 1, indiId, generation, ancestors =>
    if indiId.isEmpty then ancestors else
    match alookup g.individuals indiId with
    | none => ancestors
    | some indi =>
      match getFamC g indi with
      | none => ancestors
      | some fam =>
        let afterHusband :=
          match presentId fam.husbandId with
          | some parentId =>
            if acontains g.individuals parentId then
              ancestorTraverse g budget parentId (generation + 1)
                (addGen ancestors parentId generation)
            else ancestors
          | none => ancestors
        match presentId fam.wifeId with
        | some parentId =>
          if acontains g.individuals parentId then
            ancestorTraverse g budget parentId (generation + 1)
              (addGen afterHusband parentId generation)
          else afterHusband
        | none => afterHusband

/-- `core._build_ancestor_set`. -/
def buildAncestorSet (g : Graph) (individualId : String) (maxGenerations : Nat) :
    List (String × List Nat) :=
  ancestorTraverse g maxGenerations (normalizeLookupId individualId) 1 []

/-- A small sanity graph: I3 has parents I1, I2 (family F1). -/
def sanityG : Graph :=
  { individuals :=
      [ ("@I1@", { id := "@I1@", givenName := "Al" }),
        ("@I2@", { id := "@I2@", givenName := "Bea" }),
        ("@I3@", { id := "@I3@", givenName := "Cy", familyAsChild := some "@F1@" }) ],
    families :=
      [ ("@F1@", { id := "@F1@", husbandId := some "@I1@", wifeId := some "@I2@",
                   childrenIds := ["@I3@"] }) ] }

example : buildAncestorSet sanityG "I3" 10 = [("@I1@", [1]), ("@I2@", [1])] := by decide

example : buildAncestorSet sanityG "@I3@" 0 = [] := by decide

/-- Malformed self-referential data: I1 is recorded as their own father. -/
def selfG : Graph :=
  { individuals :=
      [ ("@I1@", { id := "@I1@", givenName := "Ouro", familyAsChild := some "@F1@" }) ],
    families :=
      [ ("@F1@", { id := "@F1@", husbandId := some "@I1@", childrenIds := ["@I1@"] }) ] }

/-- Values looked up in `addGen m k gen` are either old values or `gen`. -/
theorem alookup_addGen (m : List (String × List Nat)) (k : String) (gen : Nat)
    (a : String) (l : List Nat) (h : alookup (addGen m k gen) a = some l) :
    ∀ x ∈ l, (∃ l', alookup m a = some l' ∧ x ∈ l') ∨ (x = gen ∧ k = a) := by
  induction m generalizing l with
  | nil =>
    by_cases hk : k = a
    · rw [show addGen [] k gen = [(k, [gen])] from rfl] at h
      simp only [alookup, if_pos hk] at h
      obtain rfl : [gen] = l := by injection h
      intro x hx; right; exact ⟨by simpa using hx, hk⟩
    · rw [show addGen [] k gen = [(k, [gen])] from rfl] at h
      simp only [alookup, if_neg hk] at h
      cases h
  | cons hd tl ih =>
    obtain ⟨k', v⟩ := hd
    by_cases hk : k' = k
    · rw [show addGen ((k', v) :: tl) k gen = (k', v ++ [gen]) :: tl from by
        simp [addGen, hk]] at h
      by_cases ha : k' = a
      · simp only [alookup, if_pos ha] at h
        obtain rfl : v ++ [gen] = l := by injection h
        intro x hx
        rcases List.mem_append.1 hx with hx | hx
        · left; exact ⟨v, by simp [alookup, if_pos ha], hx⟩
        · right; exact ⟨by simpa using hx, hk.symm ▸ ha⟩
      · simp only [alookup, if_neg ha] at h
        intro x hx
        left; exact ⟨l, by simp [alookup, if_neg ha, h], hx⟩
    · rw [show addGen ((k', v) :: tl) k gen = (k', v) :: addGen tl k gen from by
        simp [addGen, hk]] at h
      by_cases ha : k' = a
      · simp only [alookup, if_pos ha] at h
        obtain rfl : v = l := by injection h
        intro x hx
        left; exact ⟨v, by simp [alookup, if_pos ha], hx⟩
      · simp only [alookup, if_neg ha] at h
        intro x hx
        rcases ih l h x hx with ⟨l', hl', hx'⟩ | hx'
        · left; exact ⟨l', by simp [alookup, if_neg ha, hl'], hx'⟩
        · right; exact hx'

/-- Keys of `addGen m k gen` are `k` plus the old keys. -/
theorem acontains_addGen (m : List (String × List Nat)) (k : String) (gen : Nat)
    (a : String) :
    acontains (addGen m k gen) a ↔ (k = a ∨ acontains m a) := by
  induction m with
  | nil =>
    by_cases hk : k = a <;>
      simp [addGen, acontains, alookup, hk]
  | cons hd tl ih =>
    obtain ⟨k', v⟩ := hd
    by_cases hk : k' = k
    · rw [show addGen ((k', v) :: tl) k gen = (k', v ++ [gen]) :: tl from by
        simp [addGen, hk]]
      by_cases ha : k' = a <;>
        simp [acontains, alookup, ha, hk ▸ ha]
    · rw [show addGen ((k', v) :: tl) k gen = (k', v) :: addGen tl k gen from by
        simp [addGen, hk]]
      by_cases ha : k' = a
      · simp [acontains, alookup, ha]
      · simpa [acontains, alookup, ha] using ih

/-- All generation distances recorded in a map lie in `[1, maxg]`. -/
def ancInvariant (maxg : Nat) (m : List (String × List Nat)) : Prop :=
  ∀ a l, alookup m a = some l → ∀ x ∈ l, 1 ≤ x ∧ x ≤ maxg

theorem ancestorTraverse_invariant (g : Graph) (maxg : Nat) :
    ∀ (budget generation : Nat) (indiId : String) (acc : List (String × List Nat)),
      1 ≤ generation → generation + budget ≤ maxg + 1 →
      ancInvariant maxg acc →
      ancInvariant maxg (ancestorTraverse g budget indiId generation acc) := by
  intro budget
  induction budget with
  | zero =>
    intro generation indiId acc _ _ hacc
    simpa only [ancestorTraverse] using hacc
  | succ b ih =>
    intro generation indiId acc hgen hle hacc
    have hgle : generation ≤ maxg := by omega
    have haddInv : ∀ (m : List (String × List Nat)) (p : String), ancInvariant maxg m →
        ancInvariant maxg (addGen m p generation) := by
      intro m p hm a l hl x hx
      rcases alookup_addGen m p generation a l hl x hx with ⟨l', hl', hx'⟩ | ⟨rfl, _⟩
      · exact hm a l' hl' x hx'
      · exact ⟨hgen, hgle⟩
    have htravInv : ∀ (p : String) (m : List (String × List Nat)), ancInvariant maxg m →
        ancInvariant maxg (ancestorTraverse g b p (generation + 1) m) := by
      intro p m hm
      exact ih (generation + 1) p m (by omega) (by omega) hm
    rw [ancestorTraverse]
    split
    · exact hacc
    · split
      · exact hacc
      · split
        · exact hacc
        · dsimp only
          repeat' split
          all_goals first
            | exact hacc
            | exact htravInv _ _ hacc
            | exact htravInv _ _ (haddInv _ _ hacc)
            | exact htravInv _ _ (haddInv _ _ (htravInv _ _ (haddInv _ _ hacc)))

/-- The accumulator's keys survive the traversal. -/
theorem ancestorTraverse_keys_grow (g : Graph) :
    ∀ (b : Nat) (indiId : String) (generation : Nat) (acc : List (String × List Nat))
      (a : String), acontains acc a →
      acontains (ancestorTraverse g b indiId generation acc) a := by
  intro b
  induction b with
  | zero => intro indiId generation acc a h; simpa only [ancestorTraverse] using h
  | succ b ih =>
    intro indiId generation acc a h
    have hadd : ∀ (m : List (String × List Nat)) (p : String),
        acontains m a → acontains (addGen m p generation) a := by
      intro m p hm
      exact (acontains_addGen m p generation a).2 (Or.inr hm)
    rw [ancestorTraverse]
    split
    · exact h
    · split
      · exact h
      · split
        · exact h
        · dsimp only
          repeat' split
          all_goals first
            | exact h
            | exact ih _ _ _ _ (hadd _ _ h)
            | exact ih _ _ _ _ (hadd _ _ (ih _ _ _ _ (hadd _ _ h)))

/-- The traversal with a larger budget (and a larger accumulator) reaches
a superset of keys. -/
theorem ancestorTraverse_keys_mono (g : Graph) :
    ∀ (b1 b2 : Nat) (indiId : String) (generation : Nat)
      (acc1 acc2 : List (String × List Nat)),
      b1 ≤ b2 →
      (∀ a, acontains acc1 a → acontains acc2 a) →
      ∀ a, acontains (ancestorTraverse g b1 indiId generation acc1) a →
        acontains (ancestorTraverse g b2 indiId generation acc2) a := by
  intro b1
  induction b1 with
  | zero =>
    intro b2 indiId generation acc1 acc2 _ hsub a h
    rw [ancestorTraverse] at h
    exact ancestorTraverse_keys_grow g b2 indiId generation acc2 a (hsub a h)
  | succ b ih =>
    intro b2 indiId generation acc1 acc2 hb hsub a h
    obtain ⟨b2', rfl⟩ : ∃ b2', b2 = b2' + 1 := ⟨b2 - 1, by omega⟩
    have hb' : b ≤ b2' := by omega
    by_cases hemp : indiId.isEmpty
    · simp only [ancestorTraverse, if_pos hemp] at h ⊢
      exact hsub a h
    · simp only [ancestorTraverse, if_neg hemp] at h ⊢
      cases hindi : alookup g.individuals indiId with
      | none => simp only [hindi] at h ⊢; exact hsub a h
      | some indi =>
        simp only [hindi] at h ⊢
        cases hfam : getFamC g indi with
        | none => simp only [hfam] at h ⊢; exact hsub a h
        | some fam =>
          simp only [hfam] at h ⊢
          have hsubAdd : ∀ (p : String) (m1 m2 : List (String × List Nat)),
              (∀ a, acontains m1 a → acontains m2 a) →
              ∀ a, acontains (addGen m1 p generation) a →
                acontains (addGen m2 p generation) a := by
            intro p m1 m2 hm a' ha'
            rcases (acontains_addGen m1 p generation a').1 ha' with heq | ha'
            · exact (acontains_addGen m2 p generation a').2 (Or.inl heq)
            · exact (acontains_addGen m2 p generation a').2 (Or.inr (hm a' ha'))
          cases hh : presentId fam.husbandId with
          | none =>
            simp only [hh] at h ⊢
            cases hw : presentId fam.wifeId with
            | none => simp only [hw] at h ⊢; exact hsub a h
            | some q =>
              simp only [hw] at h ⊢
              by_cases hacW : acontains g.individuals q
              · rw [if_pos hacW] at h ⊢
                exact ih b2' q (generation + 1) _ _ hb' (hsubAdd q acc1 acc2 hsub) a h
              · rw [if_neg hacW] at h ⊢
                exact hsub a h
          | some p =>
            simp only [hh] at h ⊢
            by_cases hacH : acontains g.individuals p
            · rw [if_pos hacH] at h ⊢
              have hsubH : ∀ a,
                  acontains (ancestorTraverse g b p (generation + 1)
                    (addGen acc1 p generation)) a →
                  acontains (ancestorTraverse g b2' p (generation + 1)
                    (addGen acc2 p generation)) a :=
                ih b2' p (generation + 1) _ _ hb' (hsubAdd p acc1 acc2 hsub)
              cases hw : presentId fam.wifeId with
              | none => simp only [hw] at h ⊢; exact hsubH a h
              | some q =>
                simp only [hw] at h ⊢
                by_cases hacW : acontains g.individuals q
                · rw [if_pos hacW] at h ⊢
                  exact ih b2' q (generation + 1) _ _ hb' (hsubAdd q _ _ hsubH) a h
                · rw [if_neg hacW] at h ⊢
                  exact hsubH a h
            · rw [if_neg hacH] at h ⊢
              cases hw : presentId fam.wifeId with
              | none => simp only [hw] at h ⊢; exact hsub a h
              | some q =>
                simp only [hw] at h ⊢
                by_cases hacW : acontains g.individuals q
                · rw [if_pos hacW] at h ⊢
                  exact ih b2' q (generation + 1) _ _ hb' (hsubAdd q acc1 acc2 hsub) a h
                · rw [if_neg hacW] at h ⊢
                  exact hsub a h

set_option maxRecDepth 4000 in
/-- Claim C4, counterexample: `_build_ancestor_set` itself has no internal
100 cap.  On self-referential data with `max_generations = 101` it records
the generation distance 101 (> 100); the constant 100 is applied by
`_get_relationship`, not by the builder. -/
theorem claim_C4_counterexample :
    101 ∈ ((alookup (buildAncestorSet selfG "@I1@" 101) "@I1@").getD []) ∧
      ¬(101 ≤ 100) := by decide

/-- Claim C4, amended: `_build_ancestor_set` terminates for every
`max_generations` because the generation counter strictly increases and the
walk stops beyond `max_generations` (the model's structural budget is exactly
this guard); every recorded generation distance lies in `[1, max_generations]`.
The constant 100 only enters through `_get_relationship`, which substitutes
100 for an unset `max_generations` before calling the builder. -/
theorem claim_C4_ancestor_distances_bounded (g : Graph) (idA : String)
    (maxg : Nat) (a : String) (l : List Nat)
    (h : alookup (buildAncestorSet g idA maxg) a = some l) :
    ∀ x ∈ l, 1 ≤ x ∧ x ≤ maxg := by
  refine ancestorTraverse_invariant g maxg maxg 1 (normalizeLookupId idA) []
    (le_refl 1) (by omega) ?_ a l h
  intro a' l' hl'
  simp [alookup] at hl'

theorem claim_C4_witness :
    alookup (buildAncestorSet sanityG "@I3@" 10) "@I1@" = some [1] ∧
      (∀ x ∈ [1], 1 ≤ x ∧ x ≤ 10) :=
  ⟨by decide, claim_C4_ancestor_distances_bounded sanityG "@I3@" 10 "@I1@" [1] (by decide)⟩

/-- Claim C6: for generation caps `g1 < g2`, every key of
`_build_ancestor_set(A, g1)` is a key of `_build_ancestor_set(A, g2)`. -/
theorem claim_C6_ancestor_set_monotone (g : Graph) (idA : String) (g1 g2 : Nat)
    (h : g1 < g2) :
    ∀ k, acontains (buildAncestorSet g idA g1) k →
      acontains (buildAncestorSet g idA g2) k := by
  intro k hk
  exact ancestorTraverse_keys_mono g g1 g2 (normalizeLookupId idA) 1 [] []
    (Nat.le_of_lt h) (fun _ ha => ha) k hk

theorem claim_C6_witness :
    1 < 2 ∧ (∀ k, acontains (buildAncestorSet sanityG "@I3@" 1) k →
      acontains (buildAncestorSet sanityG "@I3@" 2) k) :=
  ⟨by decide, claim_C6_ancestor_set_monotone sanityG "@I3@" 1 2 (by decide)⟩

/-- `core._ordinal`. -/
def ordinal (n : Nat) : String :=
  match n with
  | 1 => "first" | 2 => "second" | 3 => "third" | 4 => "fourth" | 5 => "fifth"
  | 6 => "sixth" | 7 => "seventh" | 8 => "eighth" | 9 => "ninth" | 10 => "tenth"
  | _ => toString n ++ "th"

/-- `core._ancestor_name`. -/
def ancestorName (gen : Nat) : String :=
  if gen = 1 then "parent"
  else if gen = 2 then "grandparent"
  else if gen = 3 then "great-grandparent"
  else ordinal (gen - 2) ++ " great-grandparent"

/-- `core._descendant_name`. -/
def descendantName (gen : Nat) : String :=
  if gen = 1 then "child"
  else if gen = 2 then "grandchild"
  else if gen = 3 then "great-grandchild"
  else ordinal (gen - 2) ++ " great-grandchild"

/-- `_get_relationship` lines 557-560 (and 562-565 mirrored): is `lookupId2`
a recorded parent (husband/wife of the child-family) of `indi1`? -/
def childCheck (g : Graph) (indi1 : Individual) (lookupId2 : String) : Bool :=
  match getFamC g indi1 with
  | some fam => fam.husbandId == some lookupId2 || fam.wifeId == some lookupId2
  | none => false

/-- `_get_relationship` lines 568-571: is `lookupId2` a husband/wife of one of
`indi1`'s spouse-families? -/
def spouseCheck (g : Graph) (indi1 : Individual) (lookupId2 : String) : Bool :=
  indi1.familiesAsSpouse.any (fun famId =>
    match alookup g.families famId with
    | some fam => fam.husbandId == some lookupId2 || fam.wifeId == some lookupId2
    | none => false)

/-- `_get_relationship` lines 574-584: full- or half-sibling detection. -/
def siblingCheck (g : Graph) (indi1 indi2 : Individual) : Option String :=
  match getFamC g indi1, getFamC g indi2 with
  | some fam1, some fam2 =>
    if fam1.id = fam2.id then some "sibling"
    else
      let parents1 := [fam1.husbandId, fam1.wifeId].filterMap id
      let parents2 := [fam2.husbandId, fam2.wifeId].filterMap id
      if parents1.any (fun p => parents2.contains p) then some "half-sibling" else none
  | _, _ => none

/-- `_get_relationship` lines 587-596 (and the mirror 598-607): is `lookupId2`
a husband/wife of the child-family of one of `indi1`'s recorded parents? -/
def grandparentCheck (g : Graph) (indi1 : Individual) (lookupId2 : String) : Bool :=
  match getFamC g indi1 with
  | some fam =>
    [fam.husbandId, fam.wifeId].any (fun parentIdO =>
      match parentIdO with
      | some parentId =>
        if parentId.isEmpty then false else
        match alookup g.individuals parentId with
        | some parent =>
          match getFamC g parent with
          | some gpFam =>
            gpFam.husbandId == some lookupId2 || gpFam.wifeId == some lookupId2
          | none => false
        | none => false
      | none => false)
  | none => false

/-- `_get_relationship` lines 624-633 (and the mirror 635-644): is `lookupId2`
listed among the children of the child-family of one of `indi1`'s recorded
parents (i.e. a sibling of a parent of `indi1`)? -/
def auntUncleCheck (g : Graph) (indi1 : Individual) (lookupId2 : String) : Bool :=
  match getFamC g indi1 with
  | some fam =>
    [fam.husbandId, fam.wifeId].any (fun parentIdO =>
      match parentIdO with
      | some parentId =>
        if parentId.isEmpty then false else
        match alookup g.individuals parentId with
        | some parent =>
          match getFamC g parent with
          | some gpFam => gpFam.childrenIds.contains lookupId2
          | none => false
        | none => false
      | none => false)
  | none => false

/-- `_get_relationship` lines 650-663: scan the common ids keeping the first
strict minimizer of `gen1 + gen2` (the source iterates a set built from the
first ancestor dict; we iterate the latter's insertion order). -/
def closestCommonFold (anc1 anc2 : List (String × List Nat)) :
    List String → Option (String × Nat × Nat) → Option (String × Nat × Nat)
  | [], best => best
  | aid :: rest, best =>
    let gen1 := listMin ((alookup anc1 aid).getD [])
    let gen2 := listMin ((alookup anc2 aid).getD [])
    let newBest :=
      match best with
      | none => some (aid, gen1, gen2)
      | some (bId, b1, b2) =>
        if gen1 + gen2 < b1 + b2 then some (aid, gen1, gen2) else some (bId, b1, b2)
    closestCommonFold anc1 anc2 rest newBest

/-- One side of a relationship result (`{"id": ..., "name": ...}`). -/
structure PersonRef where
  id : String
  name : Option String
deriving DecidableEq, Repr

/-- `_get_relationship`'s result dict (fields the claims consult). -/
structure RelResult where
  individual1 : PersonRef
  individual2 : PersonRef
  relationship : Option String
  error : Option String := none
  commonAncestor : Option PersonRef := none
deriving DecidableEq, Repr

/-- The cousin-label construction of `_get_relationship` lines 669-681. -/
def cousinLabelBranch (base : RelResult) (g : Graph)
    (closestId : String) (gen1 gen2 : Nat) (notRelated : RelResult) : RelResult :=
  let cousinDegree := min gen1 gen2 - 1
  let removal := max gen1 gen2 - min gen1 gen2
  if 1 ≤ cousinDegree then
    let ord := ordinal cousinDegree
    let rel :=
      if removal = 0 then ord ++ " cousin"
      else if removal = 1 then ord ++ " cousin once removed"
      else if removal = 2 then ord ++ " cousin twice removed"
      else ord ++ " cousin " ++ toString removal ++ "x removed"
    let ancName := (alookup g.individuals closestId).map fullName
    { base with
      relationship := some rel,
      commonAncestor := some { id := closestId, name := ancName } }
  else notRelated

/-- `_get_relationship` line 539: a very large number stands in for an
"unlimited" (`None`) `max_generations`. -/
def searchDepthOf : Option Nat → Nat
  | some m => m
  | none => 100

/-- `core._get_relationship`. -/
def getRelationship (g : Graph) (id1 id2 : String) (maxGenerations : Option Nat) :
    RelResult :=
  let lookupId1 := normalizeLookupId id1
  let lookupId2 := normalizeLookupId id2
  let searchDepth := searchDepthOf maxGenerations
  let indi1? := alookup g.individuals lookupId1
  let indi2? := alookup g.individuals lookupId2
  let base : RelResult :=
    { individual1 := { id := lookupId1, name := indi1?.map fullName },
      individual2 := { id := lookupId2, name := indi2?.map fullName },
      relationship := none }
  match indi1?, indi2? with
  | some indi1, some indi2 =>
    if lookupId1 = lookupId2 then { base with relationship := some "same person" }
    else if childCheck g indi1 lookupId2 then { base with relationship := some "child" }
    else if childCheck g indi2 lookupId1 then { base with relationship := some "parent" }
    else if spouseCheck g indi1 lookupId2 then { base with relationship := some "spouse" }
    else
      match siblingCheck g indi1 indi2 with
      | some sib => { base with relationship := some sib }
      | none =>
        if grandparentCheck g indi1 lookupId2 then
          { base with relationship := some "grandchild" }
        else if grandparentCheck g indi2 lookupId1 then
          { base with relationship := some "grandparent" }
        else
          let ancestors1 := buildAncestorSet g lookupId1 searchDepth
          if acontains ancestors1 lookupId2 then
            let nm := ancestorName (listMin ((alookup ancestors1 lookupId2).getD []))
            { base with relationship := some nm }
          else
            let ancestors2 := buildAncestorSet g lookupId2 searchDepth
            if acontains ancestors2 lookupId1 then
              let nm := descendantName (listMin ((alookup ancestors2 lookupId1).getD []))
              { base with relationship := some nm }
            else if auntUncleCheck g indi1 lookupId2 then
              { base with relationship := some "niece/nephew" }
            else if auntUncleCheck g indi2 lookupId1 then
              { base with relationship := some "aunt/uncle" }
            else
              let commonIds := (akeys ancestors1).filter (fun k => acontains ancestors2 k)
              let depthMsg :=
                if truthyNat maxGenerations then
                  "within " ++ toString searchDepth ++ " generations"
                else "in tree"
              let notRelated :=
                { base with relationship := some ("not related (" ++ depthMsg ++ ")") }
              if commonIds.isEmpty then notRelated
              else
                match closestCommonFold ancestors1 ancestors2 commonIds none with
                | some (closestId, gen1, gen2) =>
                  if closestId.isEmpty then notRelated
                  else cousinLabelBranch base g closestId gen1 gen2 notRelated
                | none => notRelated
  | _, _ =>
    { base with
      relationship := none,
      error := some "One or both individuals not found" }

/-- Stable insertion into a sorted list: `x` goes after every `y` with
`le y x`, so elements comparing equal keep their original order, as with
Python's stable `list.sort`. -/
def insSorted {α : Type} (le : α → α → Bool) (x : α) : List α → List α
  | [] => [x]
  | y :: ys => if le y x then y :: insSorted le x ys else x :: y :: ys

/-- Stable sort (insertion sort), modelling Python's stable `list.sort(key=...)`
with `le a b = (key a ≤ key b)`.  For a total preorder `le` the stable sorted
permutation is unique, so this agrees with the source's sort. -/
def stableSortBy {α : Type} (le : α → α → Bool) (l : List α) : List α :=
  l.foldl (fun acc y => insSorted le y acc) []

theorem insSorted_perm {α : Type} (le : α → α → Bool) (x : α) (l : List α) :
    List.Perm (insSorted le x l) (x :: l) := by
  induction l with
  | nil => simp [insSorted]
  | cons y ys ih =>
    simp only [insSorted]
    split
    · exact ((ih.cons y).trans (List.Perm.swap x y ys))
    · exact List.Perm.refl _

theorem stableSortBy_perm {α : Type} (le : α → α → Bool) (l : List α) :
    List.Perm (stableSortBy le l) l := by
  suffices h : ∀ (acc : List α),
      List.Perm (l.foldl (fun acc y => insSorted le y acc) acc) (acc ++ l) by
    simpa [stableSortBy] using h []
  induction l with
  | nil => intro acc; simp
  | cons x xs ih =>
    intro acc
    simp only [List.foldl_cons]
    refine (ih (insSorted le x acc)).trans ?_
    refine (List.Perm.append_right xs ((insSorted_perm le x acc))).trans ?_
    exact (List.perm_middle).symm

theorem pairwise_insSorted {α : Type} (le : α → α → Bool)
    (htrans : ∀ a b c, le a b = true → le b c = true → le a c = true)
    (htotal : ∀ a b, le a b = true ∨ le b a = true) (x : α) (l : List α)
    (hl : List.Pairwise (fun a b => le a b = true) l) :
    List.Pairwise (fun a b => le a b = true) (insSorted le x l) := by
  induction l with
  | nil => simp [insSorted]
  | cons y ys ih =>
    simp only [insSorted]
    rcases List.pairwise_cons.1 hl with ⟨hy, hys⟩
    split
    · next hle =>
      refine List.pairwise_cons.2 ⟨?_, ih hys⟩
      intro z hz
      rcases List.mem_cons.1 ((insSorted_perm le x ys).mem_iff.1 hz) with rfl | hz2
      · exact hle
      · exact hy z hz2
    · next hle =>
      have hxy : le x y = true := by
        rcases htotal x y with h | h
        · exact h
        · exact absurd h hle
      refine List.pairwise_cons.2 ⟨?_, hl⟩
      intro z hz
      rcases List.mem_cons.1 hz with rfl | hz
      · exact hxy
      · exact htrans x y z hxy (hy z hz)

theorem pairwise_stableSortBy {α : Type} (le : α → α → Bool)
    (htrans : ∀ a b c, le a b = true → le b c = true → le a c = true)
    (htotal : ∀ a b, le a b = true ∨ le b a = true) (l : List α) :
    List.Pairwise (fun a b => le a b = true) (stableSortBy le l) := by
  suffices h : ∀ (acc : List α), List.Pairwise (fun a b => le a b = true) acc →
      List.Pairwise (fun a b => le a b = true)
        (l.foldl (fun acc y => insSorted le y acc) acc) by
    exact h [] (List.Pairwise.nil)
  induction l with
  | nil => intro acc hacc; simpa using hacc
  | cons x xs ih =>
    intro acc hacc
    simp only [List.foldl_cons]
    exact ih _ (pairwise_insSorted le htrans htotal x acc hacc)

/-- One entry of `_find_common_ancestors`' result list. -/
structure CommonAncestorEntry where
  id : String
  name : String
  generationsFrom1 : Nat
  generationsFrom2 : Nat
deriving DecidableEq, Repr

/-- `_find_common_ancestors`' result dict. -/
structure CommonAncestorsResult where
  individual1 : PersonRef
  individual2 : PersonRef
  commonAncestors : List CommonAncestorEntry
  error : Option String := none
deriving DecidableEq, Repr

/-- `core._find_common_ancestors` (the stable sort by total generation
distance is modelled with the standard stable merge sort). -/
def findCommonAncestors (g : Graph) (id1 id2 : String) (maxGenerations : Nat) :
    CommonAncestorsResult :=
  let lookupId1 := normalizeLookupId id1
  let lookupId2 := normalizeLookupId id2
  let indi1? := alookup g.individuals lookupId1
  let indi2? := alookup g.individuals lookupId2
  match indi1?, indi2? with
  | some indi1, some indi2 =>
    let ancestors1 := buildAncestorSet g lookupId1 maxGenerations
    let ancestors2 := buildAncestorSet g lookupId2 maxGenerations
    let commonIds := (akeys ancestors1).filter (fun k => acontains ancestors2 k)
    let entries := commonIds.filterMap (fun aid =>
      match alookup g.individuals aid with
      | some ancestor =>
        some { id := aid, name := fullName ancestor,
               generationsFrom1 := listMin ((alookup ancestors1 aid).getD []),
               generationsFrom2 := listMin ((alookup ancestors2 aid).getD [])
               : CommonAncestorEntry }
      | none => none)
    let sorted := stableSortBy (fun x y =>
      x.generationsFrom1 + x.generationsFrom2 ≤ y.generationsFrom1 + y.generationsFrom2)
      entries
    { individual1 := { id := lookupId1, name := some (fullName indi1) },
      individual2 := { id := lookupId2, name := some (fullName indi2) },
      commonAncestors := sorted }
  | _, _ =>
    { individual1 := { id := lookupId1, name := indi1?.map fullName },
      individual2 := { id := lookupId2, name := indi2?.map fullName },
      commonAncestors := [],
      error := some "One or both individuals not found" }

/-- Three-generation family: F1 = I1 × I2 with children I3, I6; F2 = I3 × I4
with child I5.  So I1/I2 are I5's grandparents and I6 is I5's uncle/aunt. -/
def iAbe : Individual := { id := "@I1@", givenName := "Abe", familiesAsSpouse := ["@F1@"] }

def iAda : Individual := { id := "@I2@", givenName := "Ada", familiesAsSpouse := ["@F1@"] }

def iBen : Individual :=
  { id := "@I3@", givenName := "Ben", familyAsChild := some "@F1@",
    familiesAsSpouse := ["@F2@"] }

def iBia : Individual := { id := "@I4@", givenName := "Bia", familiesAsSpouse := ["@F2@"] }

def iCal : Individual := { id := "@I5@", givenName := "Cal", familyAsChild := some "@F2@" }

def iBob : Individual := { id := "@I6@", givenName := "Bob", familyAsChild := some "@F1@" }

def famG : Graph :=
  { individuals :=
      [ ("@I1@", iAbe), ("@I2@", iAda), ("@I3@", iBen),
        ("@I4@", iBia), ("@I5@", iCal), ("@I6@", iBob) ],
    families :=
      [ ("@F1@", { id := "@F1@", husbandId := some "@I1@", wifeId := some "@I2@",
                   childrenIds := ["@I3@", "@I6@"] }),
        ("@F2@", { id := "@F2@", husbandId := some "@I3@", wifeId := some "@I4@",
                   childrenIds := ["@I5@"] }) ] }

example : (getRelationship famG "I1" "I1" (some 10)).relationship = some "same person" := by
  decide

example : (getRelationship famG "I3" "I1" (some 10)).relationship = some "child" := by decide

example : (getRelationship famG "I1" "I3" (some 10)).relationship = some "parent" := by decide

example : (getRelationship famG "I3" "I4" (some 10)).relationship = some "spouse" := by decide

example : (getRelationship famG "I3" "I6" (some 10)).relationship = some "sibling" := by decide

example : (getRelationship famG "I1" "I5" (some 10)).relationship = some "grandparent" := by
  decide

example : (getRelationship famG "I5" "I1" (some 10)).relationship = some "grandchild" := by
  decide

example : (getRelationship famG "I6" "I5" (some 10)).relationship = some "aunt/uncle" := by
  decide

example : (getRelationship famG "I5" "I6" (some 10)).relationship = some "niece/nephew" := by
  decide

example : (getRelationship famG "I1" "I4" (some 10)).relationship =
    some "not related (within 10 generations)" := by decide

example : (getRelationship famG "I1" "I4" none).relationship =
    some "not related (in tree)" := by decide

example : (findCommonAncestors famG "I5" "I5" 10).commonAncestors =
    [ { id := "@I3@", name := "Ben", generationsFrom1 := 1, generationsFrom2 := 1 },
      { id := "@I4@", name := "Bia", generationsFrom1 := 1, generationsFrom2 := 1 },
      { id := "@I1@", name := "Abe", generationsFrom1 := 2, generationsFrom2 := 2 },
      { id := "@I2@", name := "Ada", generationsFrom1 := 2, generationsFrom2 := 2 } ] := by
  decide

/-- Claim C9: on an unknown identifier, `_get_relationship` returns a null
relationship with the "One or both individuals not found" error marker, and
`_find_common_ancestors` returns an empty common-ancestor list with the same
marker (both return normally; totality of the embedding is termination). -/
theorem claim_C9_unknown_ids (g : Graph) (id1 id2 : String) (md : Option Nat)
    (mg : Nat)
    (h : alookup g.individuals (normalizeLookupId id1) = none ∨
         alookup g.individuals (normalizeLookupId id2) = none) :
    ((getRelationship g id1 id2 md).relationship = none ∧
     (getRelationship g id1 id2 md).error = some "One or both individuals not found") ∧
    ((findCommonAncestors g id1 id2 mg).commonAncestors = [] ∧
     (findCommonAncestors g id1 id2 mg).error =
       some "One or both individuals not found") := by
  rcases h with h | h
  · cases h2 : alookup g.individuals (normalizeLookupId id2) <;>
      simp [getRelationship, findCommonAncestors, h, h2]
  · cases h1 : alookup g.individuals (normalizeLookupId id1) <;>
      simp [getRelationship, findCommonAncestors, h, h1]

theorem claim_C9_witness :
    (alookup famG.individuals (normalizeLookupId "@I3@") = none ∨
     alookup famG.individuals (normalizeLookupId "@NOPE@") = none) ∧
    (((getRelationship famG "@I3@" "@NOPE@" (some 10)).relationship = none ∧
      (getRelationship famG "@I3@" "@NOPE@" (some 10)).error =
        some "One or both individuals not found") ∧
     ((findCommonAncestors famG "@I3@" "@NOPE@" 10).commonAncestors = [] ∧
      (findCommonAncestors famG "@I3@" "@NOPE@" 10).error =
        some "One or both individuals not found")) :=
  ⟨Or.inr (by decide),
   claim_C9_unknown_ids famG "@I3@" "@NOPE@" (some 10) 10 (Or.inr (by decide))⟩

/-- Claim C3, counterexample: in `famG`, I6 is a child of I5's grandparents'
family F1 and is not I5's parent, and no higher-priority rule matches, yet
`classify(I5, I6)` returns "niece/nephew" (not "aunt/uncle" as claimed) and
`classify(I6, I5)` returns "aunt/uncle" (not "niece/nephew").  The source
labels the relationship from the perspective of the first argument, exactly
as its direct parent/child rule does. -/
theorem claim_C3_counterexample :
    (auntUncleCheck famG iCal (normalizeLookupId "I6") = true ∧
     childCheck famG iCal (normalizeLookupId "I6") = false) ∧
    (getRelationship famG "I5" "I6" (some 10)).relationship ≠ some "aunt/uncle" ∧
    (getRelationship famG "I6" "I5" (some 10)).relationship ≠ some "niece/nephew" ∧
    (getRelationship famG "I5" "I6" (some 10)).relationship = some "niece/nephew" ∧
    (getRelationship famG "I6" "I5" (some 10)).relationship = some "aunt/uncle" := by
  decide

/-- Claim C3, amended: when no higher-priority classifier rule matches for
either direction and `b` is a child of one of `a`'s grandparents' families
(so in particular `b` is not `a`'s own parent, which the failed parent rule
records), `classify(a, b)` returns "niece/nephew" and the mirrored call
`classify(b, a)` returns "aunt/uncle" — the labels are the mirror image of
the ones the claim states. -/
theorem claim_C3_aunt_uncle_labels (g : Graph) (idA idB : String) (md : Option Nat)
    (indiA indiB : Individual)
    (hlA : alookup g.individuals (normalizeLookupId idA) = some indiA)
    (hlB : alookup g.individuals (normalizeLookupId idB) = some indiB)
    (hne : normalizeLookupId idA ≠ normalizeLookupId idB)
    (hcAB : childCheck g indiA (normalizeLookupId idB) = false)
    (hcBA : childCheck g indiB (normalizeLookupId idA) = false)
    (hspAB : spouseCheck g indiA (normalizeLookupId idB) = false)
    (hspBA : spouseCheck g indiB (normalizeLookupId idA) = false)
    (hsibAB : siblingCheck g indiA indiB = none)
    (hsibBA : siblingCheck g indiB indiA = none)
    (hgpAB : grandparentCheck g indiA (normalizeLookupId idB) = false)
    (hgpBA : grandparentCheck g indiB (normalizeLookupId idA) = false)
    (hancA : acontains (buildAncestorSet g (normalizeLookupId idA) (searchDepthOf md))
      (normalizeLookupId idB) = false)
    (hancB : acontains (buildAncestorSet g (normalizeLookupId idB) (searchDepthOf md))
      (normalizeLookupId idA) = false)
    (hauntA : auntUncleCheck g indiA (normalizeLookupId idB) = true)
    (hauntB : auntUncleCheck g indiB (normalizeLookupId idA) = false) :
    (getRelationship g idA idB md).relationship = some "niece/nephew" ∧
    (getRelationship g idB idA md).relationship = some "aunt/uncle" := by
  constructor
  · simp [getRelationship, hlA, hlB, hne, hcAB, hcBA, hspAB, hsibAB, hgpAB, hgpBA,
      hancA, hancB, hauntA]
  · simp [getRelationship, hlA, hlB, Ne.symm hne, hcAB, hcBA, hspBA, hsibBA, hgpAB,
      hgpBA, hancA, hancB, hauntB, hauntA]

theorem claim_C3_witness :
    (getRelationship famG "I5" "I6" (some 10)).relationship = some "niece/nephew" ∧
    (getRelationship famG "I6" "I5" (some 10)).relationship = some "aunt/uncle" :=
  claim_C3_aunt_uncle_labels famG "I5" "I6" (some 10) iCal iBob
    (by decide) (by decide) (by decide) (by decide) (by decide) (by decide)
    (by decide) (by decide) (by decide) (by decide) (by decide) (by decide)
    (by decide) (by decide) (by decide)

/-- Cousin test graph: grandparents G1 × G2 (family F0) with children P1, P2;
C1 is P1's child (F1), C2 is P2's child (F2), D2 is C2's child (F3).
So C1 and C2 are first cousins ((2,2)) and C1 and D2 are first cousins once
removed ((2,3)). -/
def iG1 : Individual := { id := "@G1@", givenName := "Gus" }

def iG2 : Individual := { id := "@G2@", givenName := "Gia" }

def iP1 : Individual :=
  { id := "@P1@", givenName := "Pam", familyAsChild := some "@F0@",
    familiesAsSpouse := ["@F1@"] }

def iP2 : Individual :=
  { id := "@P2@", givenName := "Pat", familyAsChild := some "@F0@",
    familiesAsSpouse := ["@F2@"] }

def iC1 : Individual := { id := "@C1@", givenName := "Cay", familyAsChild := some "@F1@" }

def iC2 : Individual :=
  { id := "@C2@", givenName := "Cob", familyAsChild := some "@F2@",
    familiesAsSpouse := ["@F3@"] }

def iD2 : Individual := { id := "@D2@", givenName := "Dee", familyAsChild := some "@F3@" }

def cousinG : Graph :=
  { individuals :=
      [ ("@G1@", iG1), ("@G2@", iG2), ("@P1@", iP1), ("@P2@", iP2),
        ("@C1@", iC1), ("@C2@", iC2), ("@D2@", iD2) ],
    families :=
      [ ("@F0@", { id := "@F0@", husbandId := some "@G1@", wifeId := some "@G2@",
                   childrenIds := ["@P1@", "@P2@"] }),
        ("@F1@", { id := "@F1@", husbandId := some "@P1@", childrenIds := ["@C1@"] }),
        ("@F2@", { id := "@F2@", husbandId := some "@P2@", childrenIds := ["@C2@"] }),
        ("@F3@", { id := "@F3@", husbandId := some "@C2@", childrenIds := ["@D2@"] }) ] }

/-- Claim C7: when no earlier rule matches and the ancestor sets intersect,
with the first minimizer of `gen_a + gen_b` found at minimum distances
`(g1, g2)`, a degree `min g1 g2 − 1 ≥ 1` yields the ordinal cousin label with
the removal suffix determined by `|g1 − g2|`, and degree `< 1` falls through
to the not-related fallback. -/
theorem claim_C7_cousin_labels (g : Graph) (idA idB : String) (md : Option Nat)
    (indiA indiB : Individual) (cid : String) (g1 g2 : Nat)
    (hlA : alookup g.individuals (normalizeLookupId idA) = some indiA)
    (hlB : alookup g.individuals (normalizeLookupId idB) = some indiB)
    (hne : normalizeLookupId idA ≠ normalizeLookupId idB)
    (hcAB : childCheck g indiA (normalizeLookupId idB) = false)
    (hcBA : childCheck g indiB (normalizeLookupId idA) = false)
    (hspAB : spouseCheck g indiA (normalizeLookupId idB) = false)
    (hsibAB : siblingCheck g indiA indiB = none)
    (hgpAB : grandparentCheck g indiA (normalizeLookupId idB) = false)
    (hgpBA : grandparentCheck g indiB (normalizeLookupId idA) = false)
    (hancA : acontains (buildAncestorSet g (normalizeLookupId idA) (searchDepthOf md))
      (normalizeLookupId idB) = false)
    (hancB : acontains (buildAncestorSet g (normalizeLookupId idB) (searchDepthOf md))
      (normalizeLookupId idA) = false)
    (hauntA : auntUncleCheck g indiA (normalizeLookupId idB) = false)
    (hauntB : auntUncleCheck g indiB (normalizeLookupId idA) = false)
    (hfold : closestCommonFold
      (buildAncestorSet g (normalizeLookupId idA) (searchDepthOf md))
      (buildAncestorSet g (normalizeLookupId idB) (searchDepthOf md))
      ((akeys (buildAncestorSet g (normalizeLookupId idA) (searchDepthOf md))).filter
        (fun k => acontains
          (buildAncestorSet g (normalizeLookupId idB) (searchDepthOf md)) k))
      none = some (cid, g1, g2))
    (hcid : cid.isEmpty = false) :
    (1 ≤ min g1 g2 - 1 →
      (getRelationship g idA idB md).relationship = some (
        if max g1 g2 - min g1 g2 = 0 then ordinal (min g1 g2 - 1) ++ " cousin"
        else if max g1 g2 - min g1 g2 = 1 then
          ordinal (min g1 g2 - 1) ++ " cousin once removed"
        else if max g1 g2 - min g1 g2 = 2 then
          ordinal (min g1 g2 - 1) ++ " cousin twice removed"
        else ordinal (min g1 g2 - 1) ++ " cousin " ++ toString (max g1 g2 - min g1 g2)
          ++ "x removed")) ∧
    (min g1 g2 - 1 = 0 →
      (getRelationship g idA idB md).relationship = some ("not related (" ++
        (if truthyNat md then "within " ++ toString (searchDepthOf md) ++ " generations"
         else "in tree") ++ ")")) := by
  have hcne : ((akeys (buildAncestorSet g (normalizeLookupId idA)
      (searchDepthOf md))).filter (fun k => acontains
        (buildAncestorSet g (normalizeLookupId idB) (searchDepthOf md)) k)).isEmpty
      = false := by
    cases hfilter : ((akeys (buildAncestorSet g (normalizeLookupId idA)
        (searchDepthOf md))).filter (fun k => acontains
          (buildAncestorSet g (normalizeLookupId idB) (searchDepthOf md)) k)) with
    | nil => rw [hfilter] at hfold; simp [closestCommonFold] at hfold
    | cons x xs => simp [List.isEmpty]
  constructor
  · intro hdeg
    simp only [getRelationship, hlA, hlB, hne, hcAB, hcBA, hspAB, hsibAB, hgpAB,
      hgpBA, hancA, hancB, hauntA, hauntB, hcne, hfold, hcid, cousinLabelBranch,
      Bool.false_eq_true, if_false, if_neg, ite_false, reduceCtorEq]
    simp [hne, hdeg, hcid]
  · intro hdeg
    simp only [getRelationship, hlA, hlB, hne, hcAB, hcBA, hspAB, hsibAB, hgpAB,
      hgpBA, hancA, hancB, hauntA, hauntB, hcne, hfold, hcid, cousinLabelBranch,
      Bool.false_eq_true, if_false, if_neg, ite_false, reduceCtorEq]
    simp [hne, hdeg, hcid]

theorem claim_C7_witness :
    (getRelationship cousinG "C1" "C2" (some 10)).relationship = some "first cousin" ∧
    (getRelationship cousinG "C1" "D2" (some 10)).relationship =
      some "first cousin once removed" :=
  ⟨(claim_C7_cousin_labels cousinG "C1" "C2" (some 10) iC1 iC2 "@G1@" 2 2
      (by decide) (by decide) (by decide) (by decide) (by decide) (by decide)
      (by decide) (by decide) (by decide) (by decide) (by decide) (by decide)
      (by decide) (by decide) (by decide)).1 (by decide),
   (claim_C7_cousin_labels cousinG "C1" "D2" (some 10) iC1 iD2 "@G1@" 2 3
      (by decide) (by decide) (by decide) (by decide) (by decide) (by decide)
      (by decide) (by decide) (by decide) (by decide) (by decide) (by decide)
      (by decide) (by decide) (by decide)).1 (by decide)⟩

theorem listMin_eq_one_mem (l : List Nat) (h : listMin l = 1) : 1 ∈ l := by
  cases l with
  | nil => simp [listMin] at h
  | cons a t =>
    have hmem : ∀ (t' : List Nat) (acc : Nat),
        t'.foldl Nat.min acc = acc ∨ t'.foldl Nat.min acc ∈ t' := by
      intro t'
      induction t' with
      | nil => intro acc; left; rfl
      | cons x xs ih =>
        intro acc
        rcases ih (Nat.min acc x) with h' | h'
        · rcases Nat.le_total acc x with hle | hle
          · left
            rw [List.foldl_cons, h']
            show min acc x = acc
            omega
          · right
            rw [List.foldl_cons, h']
            have hx : Nat.min acc x = x := by show min acc x = x; omega
            rw [hx]
            exact List.mem_cons_self x xs
        · right; exact List.mem_cons_of_mem x h'
    simp only [listMin] at h
    rcases hmem t a with h' | h'
    · rw [h] at h'
      rw [← h']
      exact List.mem_cons_self 1 t
    · rw [h] at h'
      exact List.mem_cons_of_mem a h'

/-- `presentId o = some s` forces `o = some s`. -/
theorem presentId_some {o : Option String} {s : String} (h : presentId o = some s) :
    o = some s := by
  cases o with
  | none => simp [presentId] at h
  | some t =>
    simp only [presentId] at h
    split at h
    · cases h
    · exact congrArg some (Option.some.inj h)

/-- Values in the traversal output either come from the accumulator or were
recorded at generation ≥ the current one. -/
theorem ancestorTraverse_values (g : Graph) :
    ∀ (b : Nat) (indiId : String) (gen : Nat) (acc : List (String × List Nat))
      (p : String) (l : List Nat),
      alookup (ancestorTraverse g b indiId gen acc) p = some l →
      ∀ x ∈ l, (∃ l', alookup acc p = some l' ∧ x ∈ l') ∨ gen ≤ x := by
  intro b
  induction b with
  | zero =>
    intro indiId gen acc p l h x hx
    rw [ancestorTraverse] at h
    exact Or.inl ⟨l, h, hx⟩
  | succ b ih =>
    intro indiId gen acc p l h x hx
    have hC0 : ∀ (l' : List Nat) (y : Nat), alookup acc p = some l' → y ∈ l' →
        (∃ l'', alookup acc p = some l'' ∧ y ∈ l'') ∨ gen ≤ y :=
      fun l' y hl' hy => Or.inl ⟨l', hl', hy⟩
    have hCAdd : ∀ (m : List (String × List Nat)) (q : String),
        (∀ (l' : List Nat) (y : Nat), alookup m p = some l' → y ∈ l' →
          (∃ l'', alookup acc p = some l'' ∧ y ∈ l'') ∨ gen ≤ y) →
        ∀ (l' : List Nat) (y : Nat), alookup (addGen m q gen) p = some l' → y ∈ l' →
          (∃ l'', alookup acc p = some l'' ∧ y ∈ l'') ∨ gen ≤ y := by
      intro m q hm l' y hl' hy
      rcases alookup_addGen m q gen p l' hl' y hy with ⟨l'', hl'', hy''⟩ | ⟨rfl, _⟩
      · exact hm l'' y hl'' hy''
      · right; omega
    have hCTrav : ∀ (q : String) (m : List (String × List Nat)),
        (∀ (l' : List Nat) (y : Nat), alookup m p = some l' → y ∈ l' →
          (∃ l'', alookup acc p = some l'' ∧ y ∈ l'') ∨ gen ≤ y) →
        ∀ (l' : List Nat) (y : Nat),
          alookup (ancestorTraverse g b q (gen + 1) m) p = some l' → y ∈ l' →
          (∃ l'', alookup acc p = some l'' ∧ y ∈ l'') ∨ gen ≤ y := by
      intro q m hm l' y hl' hy
      rcases ih q (gen + 1) m p l' hl' y hy with ⟨l'', hl'', hy''⟩ | h'
      · exact hm l'' y hl'' hy''
      · right; omega
    rw [ancestorTraverse] at h
    repeat' split at h
    all_goals first
      | exact hC0 l x h hx
      | exact hCTrav _ _ (hCAdd _ _ hC0) l x h hx
      | exact hCTrav _ _ (hCAdd _ _ (hCTrav _ _ (hCAdd _ _ hC0))) l x h hx

/-- A generation distance 1 recorded for `p` means `p` is a recorded parent
(husband/wife of the resolved child-family) of the start individual: exactly
the direct parent check of `_get_relationship`. -/
theorem gen_one_childCheck (g : Graph) (idA : String) (maxg : Nat) (p : String)
    (l : List Nat) (h : alookup (buildAncestorSet g idA maxg) p = some l)
    (h1 : (1 : Nat) ∈ l) :
    ∃ indi, alookup g.individuals (normalizeLookupId idA) = some indi ∧
      childCheck g indi p = true := by
  unfold buildAncestorSet at h
  cases maxg with
  | zero => rw [ancestorTraverse] at h; simp [alookup] at h
  | succ b =>
    rw [ancestorTraverse] at h
    by_cases hemp : (normalizeLookupId idA).isEmpty
    · rw [if_pos hemp] at h; simp [alookup] at h
    · rw [if_neg hemp] at h
      cases hindi : alookup g.individuals (normalizeLookupId idA) with
      | none => simp only [hindi] at h; simp [alookup] at h
      | some indi =>
        simp only [hindi] at h
        cases hfam : getFamC g indi with
        | none => simp only [hfam] at h; simp [alookup] at h
        | some fam =>
          simp only [hfam] at h
          refine ⟨indi, rfl, ?_⟩
          have hgoal : ∀ (q : String), presentId fam.husbandId = some q ∨
              presentId fam.wifeId = some q → q = p → childCheck g indi p = true := by
            intro q hq heq
            subst heq
            rcases hq with hq | hq
            · simp [childCheck, hfam, presentId_some hq]
            · simp [childCheck, hfam, presentId_some hq]
          have hAH : ∀ (m : List (String × List Nat)),
              (∀ l', alookup m p = some l' → (1 : Nat) ∈ l' →
                childCheck g indi p = true) →
              ∀ (q : String) (l' : List Nat),
                (presentId fam.husbandId = some q ∨ presentId fam.wifeId = some q) →
                alookup (ancestorTraverse g b q 2 (addGen m q 1)) p = some l' →
                (1 : Nat) ∈ l' → childCheck g indi p = true := by
            intro m hm q l' hq hl' hmem
            rcases ancestorTraverse_values g b q 2 (addGen m q 1) p l' hl' 1 hmem with
              ⟨l2, hl2, h2⟩ | hge
            · rcases alookup_addGen m q 1 p l2 hl2 1 h2 with ⟨l3, hl3, h3⟩ | ⟨_, heq2⟩
              · exact hm l3 hl3 h3
              · exact hgoal q hq heq2
            · omega
          have hnil : ∀ l', alookup ([] : List (String × List Nat)) p = some l' →
              (1 : Nat) ∈ l' → childCheck g indi p = true := by
            intro l' hl'; simp [alookup] at hl'
          cases hh : presentId fam.husbandId with
          | none =>
            simp only [hh] at h
            cases hw : presentId fam.wifeId with
            | none => simp only [hw] at h; simp [alookup] at h
            | some q =>
              simp only [hw] at h
              by_cases hac : acontains g.individuals q
              · rw [if_pos hac] at h
                exact hAH [] hnil q l (Or.inr hw) h h1
              · rw [if_neg hac] at h; simp [alookup] at h
          | some qh =>
            simp only [hh] at h
            by_cases hacH : acontains g.individuals qh
            · rw [if_pos hacH] at h
              have hAHdone : ∀ l', alookup (ancestorTraverse g b qh 2 (addGen [] qh 1)) p
                  = some l' → (1 : Nat) ∈ l' → childCheck g indi p = true := by
                intro l' hl' hmem
                exact hAH [] hnil qh l' (Or.inl hh) hl' hmem
              cases hw : presentId fam.wifeId with
              | none => simp only [hw] at h; exact hAHdone l h h1
              | some qw =>
                simp only [hw] at h
                by_cases hacW : acontains g.individuals qw
                · rw [if_pos hacW] at h
                  exact hAH _ hAHdone qw l (Or.inr hw) h h1
                · rw [if_neg hacW] at h; exact hAHdone l h h1
            · rw [if_neg hacH] at h
              cases hw : presentId fam.wifeId with
              | none => simp only [hw] at h; simp [alookup] at h
              | some qw =>
                simp only [hw] at h
                by_cases hacW : acontains g.individuals qw
                · rw [if_pos hacW] at h
                  exact hAH [] hnil qw l (Or.inr hw) h h1
                · rw [if_neg hacW] at h; simp [alookup] at h

/-- `_normalize_lookup_id` is idempotent. -/
theorem normalizeLookupId_idem (s : String) :
    normalizeLookupId (normalizeLookupId s) = normalizeLookupId s := by
  have hdrop_head : ∀ (l : List Char) (a : Char) (t : List Char),
      List.dropWhile (· == '@') l = a :: t → (a == '@') = false := by
    intro l
    induction l with
    | nil => intro a t h; simp [List.dropWhile] at h
    | cons x xs ih =>
      intro a t h
      rw [List.dropWhile_cons] at h
      split at h
      · exact ih a t h
      · next hx => cases h; simpa using hx
  have hdrop_getLast? : ∀ (l : List Char),
      List.dropWhile (· == '@') l ≠ [] →
      (List.dropWhile (· == '@') l).getLast? = l.getLast? := by
    intro l
    induction l with
    | nil => intro h; simp [List.dropWhile] at h
    | cons x xs ih =>
      intro h
      rw [List.dropWhile_cons]
      rw [List.dropWhile_cons] at h
      split
      · next hx =>
        rw [if_pos hx] at h
        have hxs : xs ≠ [] := by
          intro hnil; rw [hnil] at h; simp [List.dropWhile] at h
        rw [ih h]
        cases xs with
        | nil => exact absurd rfl hxs
        | cons y ys => simp [List.getLast?_cons_cons]
      · rfl
  obtain ⟨M, hM⟩ : ∃ M, ((s.toList.dropWhile (· == '@')).reverse.dropWhile
      (· == '@')).reverse = M := ⟨_, rfl⟩
  have h1 : normalizeLookupId s = "@" ++ String.mk M ++ "@" := by
    simp only [normalizeLookupId]
    rw [hM]
  rw [h1]
  have hdata : ("@" ++ String.mk M ++ "@").toList = '@' :: (M ++ ['@']) := by
    show ('@' :: M) ++ ['@'] = '@' :: (M ++ ['@'])
    simp
  have hstrip : (((("@" ++ String.mk M ++ "@").toList.dropWhile (· == '@')).reverse.dropWhile
      (· == '@')).reverse) = M := by
    rw [hdata]
    by_cases hMn : M = []
    · rw [hMn]; rfl
    · obtain ⟨m0, M', hMc⟩ := List.exists_cons_of_ne_nil hMn
      have hL2ne : (s.toList.dropWhile (· == '@')).reverse.dropWhile (· == '@') ≠ [] := by
        intro hnil
        rw [hnil] at hM
        exact hMn hM.symm
      have hm0 : (m0 == '@') = false := by
        have hhead : M.head? = ((s.toList.dropWhile (· == '@')).reverse.dropWhile
            (· == '@')).getLast? := by
          rw [← hM, List.head?_reverse]
        have hlast : ((s.toList.dropWhile (· == '@')).reverse.dropWhile
            (· == '@')).getLast? = (s.toList.dropWhile (· == '@')).reverse.getLast? :=
          hdrop_getLast? _ hL2ne
        have hlast2 : (s.toList.dropWhile (· == '@')).reverse.getLast? =
            (s.toList.dropWhile (· == '@')).head? := List.getLast?_reverse _
        cases hL1 : s.toList.dropWhile (· == '@') with
        | nil =>
          exfalso
          apply hL2ne
          rw [hL1]
          rfl
        | cons a t =>
          have ha : (a == '@') = false := hdrop_head s.toList a t hL1
          have hma : M.head? = some a := by rw [hhead, hlast, hlast2, hL1]; rfl
          rw [hMc] at hma
          simp only [List.head?_cons, Option.some.injEq] at hma
          rw [hma]
          exact ha
      have hMdrop : List.dropWhile (· == '@') (M ++ ['@']) = M ++ ['@'] := by
        rw [hMc, List.cons_append, List.dropWhile_cons, hm0]
        simp
      have hstep1 : List.dropWhile (· == '@') ('@' :: (M ++ ['@'])) = M ++ ['@'] := by
        rw [List.dropWhile_cons]
        simp only [show (('@' : Char) == '@') = true from rfl, if_true]
        exact hMdrop
      rw [hstep1]
      have hrev : (M ++ ['@']).reverse = '@' :: M.reverse := by
        rw [List.reverse_append]
        rfl
      rw [hrev, List.dropWhile_cons]
      simp only [show (('@' : Char) == '@') = true from rfl, if_true]
      have hMrev : M.reverse = (s.toList.dropWhile (· == '@')).reverse.dropWhile
          (· == '@') := by rw [← hM, List.reverse_reverse]
      cases hL2c : (s.toList.dropWhile (· == '@')).reverse.dropWhile (· == '@') with
      | nil => exact absurd hL2c hL2ne
      | cons b bs =>
        have hb : (b == '@') = false := hdrop_head _ b bs hL2c
        rw [hMrev, hL2c, List.dropWhile_cons, hb]
        simp only [Bool.false_eq_true, if_false]
        rw [← hL2c, ← hMrev, List.reverse_reverse]
  show normalizeLookupId ("@" ++ String.mk M ++ "@") = "@" ++ String.mk M ++ "@"
  simp only [normalizeLookupId]
  rw [hstrip]

theorem ne_of_space {x y : String} (hx : ' ' ∈ x.data) (hy : ' ' ∉ y.data) : x ≠ y :=
  fun heq => hy (heq ▸ hx)

theorem space_mem_append_right {t : String} (s : String) (h : ' ' ∈ t.data) :
    ' ' ∈ (s ++ t).data := by
  show ' ' ∈ s.data ++ t.data
  exact List.mem_append.2 (Or.inr h)

theorem space_mem_append_left {s : String} (t : String) (h : ' ' ∈ s.data) :
    ' ' ∈ (s ++ t).data := by
  show ' ' ∈ s.data ++ t.data
  exact List.mem_append.2 (Or.inl h)

theorem ancestorName_cases (n : Nat) :
    ancestorName n = "parent" ∨ ancestorName n = "grandparent" ∨
    ancestorName n = "great-grandparent" ∨
    ∃ s, ancestorName n = s ++ " great-grandparent" := by
  unfold ancestorName
  split_ifs with h1 h2 h3
  · exact Or.inl rfl
  · exact Or.inr (Or.inl rfl)
  · exact Or.inr (Or.inr (Or.inl rfl))
  · exact Or.inr (Or.inr (Or.inr ⟨ordinal (n - 2), rfl⟩))

theorem descendantName_cases (n : Nat) :
    descendantName n = "child" ∨ descendantName n = "grandchild" ∨
    descendantName n = "great-grandchild" ∨
    ∃ s, descendantName n = s ++ " great-grandchild" := by
  unfold descendantName
  split_ifs with h1 h2 h3
  · exact Or.inl rfl
  · exact Or.inr (Or.inl rfl)
  · exact Or.inr (Or.inr (Or.inl rfl))
  · exact Or.inr (Or.inr (Or.inr ⟨ordinal (n - 2), rfl⟩))

theorem ancestorName_eq_parent {n : Nat} (h : ancestorName n = "parent") : n = 1 := by
  unfold ancestorName at h
  split_ifs at h with h1 h2 h3
  · exact h1
  · exact absurd h (by decide)
  · exact absurd h (by decide)
  · exact absurd h
      (ne_of_space (space_mem_append_right (ordinal (n - 2)) (by decide)) (by decide))

/-- `siblingCheck` only ever returns these labels. -/
theorem siblingCheck_values {g : Graph} {a b : Individual} {s : String}
    (h : siblingCheck g a b = some s) : s = "sibling" ∨ s = "half-sibling" := by
  unfold siblingCheck at h
  split at h
  · split at h
    · left; exact (Option.some.inj h).symm
    · dsimp only at h
      split at h
      · right; exact (Option.some.inj h).symm
      · cases h
  · cases h

/-- A "sibling" verdict (same child-family) is symmetric. -/
theorem siblingCheck_sibling_symm {g : Graph} {a b : Individual}
    (h : siblingCheck g a b = some "sibling") :
    siblingCheck g b a = some "sibling" := by
  unfold siblingCheck at h ⊢
  split at h
  · next fam1 fam2 heqa heqb =>
    rw [heqa, heqb]
    dsimp only
    split at h
    · next hid =>
      rw [if_pos hid.symm]
    · next hid =>
      dsimp only at h
      split at h
      · exact absurd (Option.some.inj h) (by decide)
      · cases h
  · cases h

/-- Under bidirectionally consistent spouse-family links, the spouse check is
symmetric. -/
theorem spouseCheck_symm (g : Graph) (l1 l2 : String) (indi1 indi2 : Individual)
    (hFams : ∀ (famId : String) (fam : Family) (indiId : String) (indi : Individual),
      alookup g.families famId = some fam →
      alookup g.individuals indiId = some indi →
      ((fam.husbandId = some indiId ∨ fam.wifeId = some indiId) ↔
        famId ∈ indi.familiesAsSpouse))
    (hlk1 : alookup g.individuals l1 = some indi1)
    (hlk2 : alookup g.individuals l2 = some indi2)
    (h : spouseCheck g indi1 l2 = true) : spouseCheck g indi2 l1 = true := by
  unfold spouseCheck at h ⊢
  rw [List.any_eq_true] at h ⊢
  obtain ⟨famId, hmem, hfam⟩ := h
  cases halook : alookup g.families famId with
  | none => rw [halook] at hfam; cases hfam
  | some fam =>
    rw [halook] at hfam
    dsimp only at hfam
    have hor : fam.husbandId = some l2 ∨ fam.wifeId = some l2 := by
      simpa only [Bool.or_eq_true, beq_iff_eq] using hfam
    have hmemB : famId ∈ indi2.familiesAsSpouse :=
      (hFams famId fam l2 indi2 halook hlk2).1 hor
    have hor1 : fam.husbandId = some l1 ∨ fam.wifeId = some l1 :=
      (hFams famId fam l1 indi1 halook hlk1).2 hmem
    refine ⟨famId, hmemB, ?_⟩
    rw [halook]
    dsimp only
    rcases hor1 with h' | h'
    · rw [h']; simp
    · rw [h']; simp

theorem spouseCheck_symm_false (g : Graph) (l1 l2 : String) (indi1 indi2 : Individual)
    (hFams : ∀ (famId : String) (fam : Family) (indiId : String) (indi : Individual),
      alookup g.families famId = some fam →
      alookup g.individuals indiId = some indi →
      ((fam.husbandId = some indiId ∨ fam.wifeId = some indiId) ↔
        famId ∈ indi.familiesAsSpouse))
    (hlk1 : alookup g.individuals l1 = some indi1)
    (hlk2 : alookup g.individuals l2 = some indi2)
    (h : spouseCheck g indi1 l2 = false) : spouseCheck g indi2 l1 = false := by
  cases hres : spouseCheck g indi2 l1 with
  | false => rfl
  | true =>
    have hcontra := spouseCheck_symm g l2 l1 indi2 indi1
      (fun famId fam indiId indi hf hi => hFams famId fam indiId indi hf hi)
      hlk2 hlk1 hres
    rw [h] at hcontra
    cases hcontra

/-- Inversion on the label produced by `_get_relationship` (the cases a
symmetry argument needs; labels with a space — "same person", cousin labels
and the not-related fallback — are lumped together). -/
theorem getRelationship_label_inv (g : Graph) (idA idB : String) (md : Option Nat)
    (indi1 indi2 : Individual) (L : String)
    (hlk1 : alookup g.individuals (normalizeLookupId idA) = some indi1)
    (hlk2 : alookup g.individuals (normalizeLookupId idB) = some indi2)
    (h : (getRelationship g idA idB md).relationship = some L) :
    (' ' ∈ L.data) ∨
    (normalizeLookupId idA ≠ normalizeLookupId idB ∧
      childCheck g indi1 (normalizeLookupId idB) = true ∧ L = "child") ∨
    (normalizeLookupId idA ≠ normalizeLookupId idB ∧
      childCheck g indi1 (normalizeLookupId idB) = false ∧
      childCheck g indi2 (normalizeLookupId idA) = true ∧ L = "parent") ∨
    (normalizeLookupId idA ≠ normalizeLookupId idB ∧
      childCheck g indi1 (normalizeLookupId idB) = false ∧
      childCheck g indi2 (normalizeLookupId idA) = false ∧
      spouseCheck g indi1 (normalizeLookupId idB) = true ∧ L = "spouse") ∨
    (normalizeLookupId idA ≠ normalizeLookupId idB ∧
      childCheck g indi1 (normalizeLookupId idB) = false ∧
      childCheck g indi2 (normalizeLookupId idA) = false ∧
      spouseCheck g indi1 (normalizeLookupId idB) = false ∧
      siblingCheck g indi1 indi2 = some L) ∨
    (L = "grandchild") ∨
    (L = "grandparent") ∨
    (childCheck g indi1 (normalizeLookupId idB) = false ∧
      ∃ l', alookup (buildAncestorSet g (normalizeLookupId idA) (searchDepthOf md))
        (normalizeLookupId idB) = some l' ∧ L = ancestorName (listMin l')) ∨
    (∃ n, L = descendantName n) ∨
    (L = "niece/nephew") ∨
    (L = "aunt/uncle") := by
  simp only [getRelationship, hlk1, hlk2] at h
  by_cases hid : normalizeLookupId idA = normalizeLookupId idB
  · rw [if_pos hid] at h
    try dsimp only at h
    obtain rfl : "same person" = L := Option.some.inj h
    exact Or.inl (by decide)
  · rw [if_neg hid] at h
    by_cases hc1 : childCheck g indi1 (normalizeLookupId idB) = true
    · rw [if_pos hc1] at h
      try dsimp only at h
      obtain rfl : "child" = L := Option.some.inj h
      exact Or.inr (Or.inl ⟨hid, hc1, rfl⟩)
    · rw [if_neg hc1] at h
      have hc1' : childCheck g indi1 (normalizeLookupId idB) = false := by
        simpa using hc1
      by_cases hc2 : childCheck g indi2 (normalizeLookupId idA) = true
      · rw [if_pos hc2] at h
        try dsimp only at h
        obtain rfl : "parent" = L := Option.some.inj h
        exact Or.inr (Or.inr (Or.inl ⟨hid, hc1', hc2, rfl⟩))
      · rw [if_neg hc2] at h
        have hc2' : childCheck g indi2 (normalizeLookupId idA) = false := by
          simpa using hc2
        by_cases hsp : spouseCheck g indi1 (normalizeLookupId idB) = true
        · rw [if_pos hsp] at h
          try dsimp only at h
          obtain rfl : "spouse" = L := Option.some.inj h
          exact Or.inr (Or.inr (Or.inr (Or.inl ⟨hid, hc1', hc2', hsp, rfl⟩)))
        · rw [if_neg hsp] at h
          have hsp' : spouseCheck g indi1 (normalizeLookupId idB) = false := by
            simpa using hsp
          cases hsib : siblingCheck g indi1 indi2 with
          | some sib =>
            simp only [hsib] at h
            try dsimp only at h
            obtain rfl : sib = L := Option.some.inj h
            exact Or.inr (Or.inr (Or.inr (Or.inr (Or.inl
              ⟨hid, hc1', hc2', hsp', rfl⟩))))
          | none =>
            simp only [hsib] at h
            by_cases hgp1 : grandparentCheck g indi1 (normalizeLookupId idB) = true
            · rw [if_pos hgp1] at h
              try dsimp only at h
              obtain rfl : "grandchild" = L := Option.some.inj h
              exact Or.inr (Or.inr (Or.inr (Or.inr (Or.inr (Or.inl rfl)))))
            · rw [if_neg hgp1] at h
              by_cases hgp2 : grandparentCheck g indi2 (normalizeLookupId idA) = true
              · rw [if_pos hgp2] at h
                try dsimp only at h
                obtain rfl : "grandparent" = L := Option.some.inj h
                exact Or.inr (Or.inr (Or.inr (Or.inr (Or.inr (Or.inr (Or.inl rfl))))))
              · rw [if_neg hgp2] at h
                by_cases hanc1 : acontains (buildAncestorSet g (normalizeLookupId idA)
                    (searchDepthOf md)) (normalizeLookupId idB) = true
                · rw [if_pos hanc1] at h
                  try dsimp only at h
                  obtain ⟨l', hl'⟩ := Option.isSome_iff_exists.mp hanc1
                  rw [hl'] at h
                  refine Or.inr (Or.inr (Or.inr (Or.inr (Or.inr (Or.inr (Or.inr
                    (Or.inl ⟨hc1', l', hl', ?_⟩)))))))
                  exact (Option.some.inj h).symm
                · rw [if_neg hanc1] at h
                  by_cases hanc2 : acontains (buildAncestorSet g
                      (normalizeLookupId idB) (searchDepthOf md))
                      (normalizeLookupId idA) = true
                  · rw [if_pos hanc2] at h
                    try dsimp only at h
                    refine Or.inr (Or.inr (Or.inr (Or.inr (Or.inr (Or.inr (Or.inr
                      (Or.inr (Or.inl ⟨_, (Option.some.inj h).symm⟩))))))))
                  · rw [if_neg hanc2] at h
                    by_cases hau1 : auntUncleCheck g indi1 (normalizeLookupId idB)
                        = true
                    · rw [if_pos hau1] at h
                      try dsimp only at h
                      obtain rfl : "niece/nephew" = L := Option.some.inj h
                      exact Or.inr (Or.inr (Or.inr (Or.inr (Or.inr (Or.inr (Or.inr
                        (Or.inr (Or.inr (Or.inl rfl)))))))))
                    · rw [if_neg hau1] at h
                      by_cases hau2 : auntUncleCheck g indi2 (normalizeLookupId idA)
                          = true
                      · rw [if_pos hau2] at h
                        try dsimp only at h
                        obtain rfl : "aunt/uncle" = L := Option.some.inj h
                        exact Or.inr (Or.inr (Or.inr (Or.inr (Or.inr (Or.inr (Or.inr
                          (Or.inr (Or.inr (Or.inr rfl)))))))))
                      · rw [if_neg hau2] at h
                        have hspace : ' ' ∈ L.data := by
                          simp only [cousinLabelBranch] at h
                          try dsimp only at h
                          repeat' split at h
                          all_goals
                            obtain rfl := Option.some.inj h
                          all_goals
                            first
                              | exact space_mem_append_left ")"
                                  (space_mem_append_left _ (by decide))
                              | exact space_mem_append_right _ (by decide)
                        exact Or.inl hspace

theorem ancestorName_no_space_ne (n : Nat) (L : String) (hL : ' ' ∉ L.data)
    (h1 : L ≠ "parent") (h2 : L ≠ "grandparent") (h3 : L ≠ "great-grandparent") :
    ancestorName n ≠ L := by
  rcases ancestorName_cases n with h | h | h | ⟨s, h⟩ <;> rw [h]
  · exact fun he => h1 he.symm
  · exact fun he => h2 he.symm
  · exact fun he => h3 he.symm
  · exact ne_of_space (space_mem_append_right s (by decide)) hL

theorem descendantName_no_space_ne (n : Nat) (L : String) (hL : ' ' ∉ L.data)
    (h1 : L ≠ "child") (h2 : L ≠ "grandchild") (h3 : L ≠ "great-grandchild") :
    descendantName n ≠ L := by
  rcases descendantName_cases n with h | h | h | ⟨s, h⟩ <;> rw [h]
  · exact fun he => h1 he.symm
  · exact fun he => h2 he.symm
  · exact fun he => h3 he.symm
  · exact ne_of_space (space_mem_append_right s (by decide)) hL

theorem alookup_mem {α : Type} (m : List (String × α)) (k : String) (v : α)
    (h : alookup m k = some v) : (k, v) ∈ m := by
  induction m with
  | nil => simp [alookup] at h
  | cons hd tl ih =>
    obtain ⟨k', v'⟩ := hd
    simp only [alookup] at h
    split at h
    · next heq =>
      obtain rfl := Option.some.inj h
      exact heq ▸ List.mem_cons_self _ _
    · exact List.mem_cons_of_mem _ (ih h)

/-- The bidirectional spouse-link invariant holds for the concrete `famG`. -/
theorem famG_fams_consistent :
    ∀ (famId : String) (fam : Family) (indiId : String) (indi : Individual),
      alookup famG.families famId = some fam →
      alookup famG.individuals indiId = some indi →
      ((fam.husbandId = some indiId ∨ fam.wifeId = some indiId) ↔
        famId ∈ indi.familiesAsSpouse) := by
  intro famId fam indiId indi hf hi
  have hf' := alookup_mem _ _ _ hf
  have hi' := alookup_mem _ _ _ hi
  simp only [famG, List.mem_cons, List.not_mem_nil, or_false, Prod.mk.injEq] at hf' hi'
  rcases hf' with ⟨rfl, rfl⟩ | ⟨rfl, rfl⟩ <;>
    rcases hi' with ⟨rfl, rfl⟩ | ⟨rfl, rfl⟩ | ⟨rfl, rfl⟩ | ⟨rfl, rfl⟩ | ⟨rfl, rfl⟩ |
      ⟨rfl, rfl⟩ <;> decide

/-- Claim C5, counterexample: with a one-sided spouse link (A lists family F9
among its spouse-families, F9's husband is B, but B does not point back to
F9), `classify(A, B)` is "spouse" while `classify(B, A)` is not — the claim
fails on data the loader accepts, since the loader never cross-checks
`families_as_spouse` against `HUSB`/`WIFE`. -/
def iSpA : Individual := { id := "@A@", givenName := "Asy", familiesAsSpouse := ["@F9@"] }

def iSpB : Individual := { id := "@B@", givenName := "Bee" }

def spouseAsymG : Graph :=
  { individuals := [("@A@", iSpA), ("@B@", iSpB)],
    families := [("@F9@", { id := "@F9@", husbandId := some "@B@" })] }

theorem claim_C5_counterexample :
    (getRelationship spouseAsymG "A" "B" (some 10)).relationship = some "spouse" ∧
    (getRelationship spouseAsymG "B" "A" (some 10)).relationship ≠ some "spouse" := by
  decide

/-- Claim C5, amended: "parent" always mirrors to "child"; the sibling and
spouse mirror laws additionally require the spouse-family links to be
bidirectionally consistent (a family resolved from the store lists an
individual as husband/wife exactly when that individual lists the family in
`families_as_spouse`), which the repository's own data-integrity tests
assert. -/
theorem claim_C5_symmetry (g : Graph) (idA idB : String) (md : Option Nat) :
    ((getRelationship g idA idB md).relationship = some "parent" →
      (getRelationship g idB idA md).relationship = some "child") ∧
    ((∀ (famId : String) (fam : Family) (indiId : String) (indi : Individual),
        alookup g.families famId = some fam →
        alookup g.individuals indiId = some indi →
        ((fam.husbandId = some indiId ∨ fam.wifeId = some indiId) ↔
          famId ∈ indi.familiesAsSpouse)) →
      ((getRelationship g idA idB md).relationship = some "sibling" →
        (getRelationship g idB idA md).relationship = some "sibling") ∧
      ((getRelationship g idA idB md).relationship = some "spouse" →
        (getRelationship g idB idA md).relationship = some "spouse")) := by
  have hpre : ∀ (L : String),
      (getRelationship g idA idB md).relationship = some L →
      ∃ indi1 indi2, alookup g.individuals (normalizeLookupId idA) = some indi1 ∧
        alookup g.individuals (normalizeLookupId idB) = some indi2 := by
    intro L h
    cases hlk1 : alookup g.individuals (normalizeLookupId idA) with
    | none =>
      cases hlk2 : alookup g.individuals (normalizeLookupId idB) <;>
        simp [getRelationship, hlk1, hlk2] at h
    | some indi1 =>
      cases hlk2 : alookup g.individuals (normalizeLookupId idB) with
      | none => simp [getRelationship, hlk1, hlk2] at h
      | some indi2 => exact ⟨indi1, indi2, rfl, rfl⟩
  constructor
  -- parent mirrors to child, on every graph
  · intro h
    obtain ⟨indi1, indi2, hlk1, hlk2⟩ := hpre _ h
    rcases getRelationship_label_inv g idA idB md indi1 indi2 "parent" hlk1 hlk2 h with
      hsp | ⟨_, _, hL⟩ | ⟨hidne, hc1, hc2T, _⟩ | ⟨_, _, _, _, hL⟩ |
      ⟨_, _, _, _, hsibL⟩ | hL | hL | ⟨hc1', l', hl', hLa⟩ | ⟨n, hLd⟩ | hL | hL
    · exact absurd hsp (by decide)
    · exact absurd hL (by decide)
    · simp [getRelationship, hlk2, hlk1, Ne.symm hidne, hc2T]
    · exact absurd hL (by decide)
    · rcases siblingCheck_values hsibL with hv | hv <;> exact absurd hv (by decide)
    · exact absurd hL (by decide)
    · exact absurd hL (by decide)
    · have h1 : listMin l' = 1 := ancestorName_eq_parent hLa.symm
      have hmem1 : (1 : Nat) ∈ l' := listMin_eq_one_mem l' h1
      obtain ⟨indi, hlky, hcc⟩ := gen_one_childCheck g (normalizeLookupId idA)
        (searchDepthOf md) (normalizeLookupId idB) l' hl' hmem1
      rw [normalizeLookupId_idem, hlk1] at hlky
      obtain rfl := Option.some.inj hlky
      rw [hc1'] at hcc
      cases hcc
    · exact absurd hLd.symm
        (descendantName_no_space_ne _ _ (by decide) (by decide) (by decide) (by decide))
    · exact absurd hL (by decide)
    · exact absurd hL (by decide)
  · intro hFams
    constructor
    -- sibling mirrors to sibling
    · intro h
      obtain ⟨indi1, indi2, hlk1, hlk2⟩ := hpre _ h
      rcases getRelationship_label_inv g idA idB md indi1 indi2 "sibling" hlk1 hlk2 h with
        hsp | ⟨_, _, hL⟩ | ⟨_, _, _, hL⟩ | ⟨_, _, _, _, hL⟩ |
        ⟨hidne, hc1, hc2, hspF, hsibL⟩ | hL | hL | ⟨hc1', l', hl', hLa⟩ | ⟨n, hLd⟩ |
        hL | hL
      · exact absurd hsp (by decide)
      · exact absurd hL (by decide)
      · exact absurd hL (by decide)
      · exact absurd hL (by decide)
      · have hsibBA := siblingCheck_sibling_symm hsibL
        have hspBA := spouseCheck_symm_false g (normalizeLookupId idA)
          (normalizeLookupId idB) indi1 indi2 hFams hlk1 hlk2 hspF
        simp [getRelationship, hlk2, hlk1, Ne.symm hidne, hc2, hc1, hspBA, hsibBA]
      · exact absurd hL (by decide)
      · exact absurd hL (by decide)
      · exact absurd hLa.symm
          (ancestorName_no_space_ne _ _ (by decide) (by decide) (by decide) (by decide))
      · exact absurd hLd.symm
          (descendantName_no_space_ne _ _ (by decide) (by decide) (by decide) (by decide))
      · exact absurd hL (by decide)
      · exact absurd hL (by decide)
    -- spouse mirrors to spouse
    · intro h
      obtain ⟨indi1, indi2, hlk1, hlk2⟩ := hpre _ h
      rcases getRelationship_label_inv g idA idB md indi1 indi2 "spouse" hlk1 hlk2 h with
        hsp | ⟨_, _, hL⟩ | ⟨_, _, _, hL⟩ | ⟨hidne, hc1, hc2, hspT, _⟩ |
        ⟨_, _, _, _, hsibL⟩ | hL | hL | ⟨hc1', l', hl', hLa⟩ | ⟨n, hLd⟩ | hL | hL
      · exact absurd hsp (by decide)
      · exact absurd hL (by decide)
      · exact absurd hL (by decide)
      · have hsp2 := spouseCheck_symm g (normalizeLookupId idA) (normalizeLookupId idB)
          indi1 indi2 hFams hlk1 hlk2 hspT
        simp [getRelationship, hlk2, hlk1, Ne.symm hidne, hc1, hc2, hsp2]
      · rcases siblingCheck_values hsibL with hv | hv <;> exact absurd hv (by decide)
      · exact absurd hL (by decide)
      · exact absurd hL (by decide)
      · exact absurd hLa.symm
          (ancestorName_no_space_ne _ _ (by decide) (by decide) (by decide) (by decide))
      · exact absurd hLd.symm
          (descendantName_no_space_ne _ _ (by decide) (by decide) (by decide) (by decide))
      · exact absurd hL (by decide)
      · exact absurd hL (by decide)

theorem claim_C5_witness :
    (getRelationship famG "I3" "I1" (some 10)).relationship = some "child" ∧
    (getRelationship famG "I4" "I3" (some 10)).relationship = some "spouse" :=
  ⟨(claim_C5_symmetry famG "I1" "I3" (some 10)).1 (by decide),
   ((claim_C5_symmetry famG "I3" "I4" (some 10)).2 famG_fams_consistent).2 (by decide)⟩

/-- The nested ancestor tree of `_get_ancestors` (default mode).  A node's
`father`/`mother` slot is `absent` when the source dict has no such key
(generation budget exhausted or no resolvable child-family), `null` when the
key is present with value `None`, and a `node` otherwise. -/
inductive AncTree where
  | absent : AncTree
  | null : AncTree
  | node (summ : Summary) (father mother : AncTree) : AncTree
deriving DecidableEq, Repr

/-- The value stored in a `father`/`mother` key (`None` becomes `null`). -/
def slotOf : Option AncTree → AncTree
  | some t => t
  | none => AncTree.null

/-- One entry of the `filter="terminal"` result list. -/
structure TermAncestor where
  summ : Summary
  generation : Int
  path : List String
deriving DecidableEq, Repr

/-- `_get_ancestors` returns a nested tree (`{}` = `tree none`) or, in
terminal mode, a flat list. -/
inductive AncestorsResult where
  | tree (t : Option AncTree)
  | terminal (l : List TermAncestor)
deriving DecidableEq, Repr

/-- `build_ancestor_tree` of `_get_ancestors`.  The fuel equals the source's
`gen` counter (both start at `generations + 1` and decrease by 1 per level,
and `fuel = 0` is exactly the guard `gen <= 0`). -/
def buildAncestorTree (g : Graph) : Nat → Option String → Option AncTree
  | 0, _ => none
  | fuel + 1, indiIdO =>
    match indiIdO with
    | none => none
    | some indiId =>
      if indiId.isEmpty then none else
      match alookup g.individuals indiId with
      | none => none
      | some indi =>
        if fuel + 1 > 1 then
          match getFamC g indi with
          | some fam =>
            some (AncTree.node (toSummary indi)
              (slotOf (buildAncestorTree g fuel fam.husbandId))
              (slotOf (buildAncestorTree g fuel fam.wifeId)))
          | none => some (AncTree.node (toSummary indi) AncTree.absent AncTree.absent)
        else some (AncTree.node (toSummary indi) AncTree.absent AncTree.absent)

/-- `find_terminal` of `_get_ancestors`, threading the `seen` set and the
result list explicitly; fuel synchronises with `gen` as in
`buildAncestorTree`. -/
def findTerminal (g : Graph) (lookupId : String) (generations : Int) :
    Nat → Option String → Int → List String → List String × List TermAncestor →
    List String × List TermAncestor
  | 0, _, _, _, st => st
  | fuel + 1, indiIdO, gen, path, (seen, results) =>
    match indiIdO with
    | none => (seen, results)
    | some indiId =>
      if indiId.isEmpty then (seen, results) else
      match alookup g.individuals indiId with
      | none => (seen, results)
      | some indi =>
        if seen.contains indiId then (seen, results) else
        let seen1 := seen ++ [indiId]
        let famO := getFamC g indi
        let hasParents :=
          match famO with
          | some fam => (presentId fam.husbandId).isSome || (presentId fam.wifeId).isSome
          | none => false
        let st1 :=
          match famO with
          | some fam =>
            if (presentId fam.husbandId).isSome || (presentId fam.wifeId).isSome then
              let stH :=
                match presentId fam.husbandId with
                | some _ =>
                  findTerminal g lookupId generations fuel fam.husbandId (gen - 1)
                    (path ++ ["father"]) (seen1, results)
                | none => (seen1, results)
              match presentId fam.wifeId with
              | some _ =>
                findTerminal g lookupId generations fuel fam.wifeId (gen - 1)
                  (path ++ ["mother"]) stH
              | none => stH
            else (seen1, results)
          | none => (seen1, results)
        if !hasParents && indiId != lookupId then
          (st1.1, st1.2 ++
            [{ summ := toSummary indi, generation := generations - gen + 1, path := path }])
        else st1

/-- `core._get_ancestors`. -/
def getAncestors (g : Graph) (individualId : String) (generations : Int)
    (filter : Option String) : AncestorsResult :=
  let lookupId := normalizeLookupId individualId
  let gens := min generations 20
  if filter == some "terminal" then
    AncestorsResult.terminal
      ((findTerminal g lookupId gens (gens + 1).toNat (some lookupId) (gens + 1)
        [] ([], [])).2)
  else
    AncestorsResult.tree (buildAncestorTree g (gens + 1).toNat (some lookupId))

/-- Height (in nodes) of a nested ancestor tree; a slot that is `absent` or
`null` contributes 0, so `height - 1` is the maximal number of parent-links
from the root. -/
def ancTreeHeight : AncTree → Nat
  | .absent => 0
  | .null => 0
  | .node _ f m => 1 + max (ancTreeHeight f) (ancTreeHeight m)

/-- Maximal parent-link distance in the nested-tree result (0 for `{}` and
for terminal mode). -/
def ancResultDepth : AncestorsResult → Nat
  | .tree (some t) => ancTreeHeight t - 1
  | .tree none => 0
  | .terminal _ => 0

/-- A 12-generation paternal chain: K0's father is K1, K1's father is K2, … -/
def chainG : Graph :=
  { individuals :=
      (List.range 12).map (fun k =>
        ("@K" ++ toString k ++ "@",
         { id := "@K" ++ toString k ++ "@", givenName := "K" ++ toString k,
           familyAsChild := if k < 11 then some ("@G" ++ toString k ++ "@") else none })),
    families :=
      (List.range 11).map (fun k =>
        ("@G" ++ toString k ++ "@",
         { id := "@G" ++ toString k ++ "@",
           husbandId := some ("@K" ++ toString (k + 1) ++ "@"),
           childrenIds := ["@K" ++ toString k ++ "@"] })) }

set_option maxRecDepth 4000 in
/-- Claim C2, counterexample: `_get_ancestors` caps the nested-tree mode at
20 generations, not 10.  On a 12-deep paternal chain, requesting 12
generations yields a tree containing an ancestor 11 parent-links away, and
the tree differs from the one returned for `min(12, 10)`. -/
theorem claim_C2_counterexample :
    ancResultDepth (getAncestors chainG "K0" 12 none) = 11 ∧ ¬(11 ≤ 10) ∧
    getAncestors chainG "K0" 12 none ≠ getAncestors chainG "K0" (min 12 10) none := by
  decide

theorem buildAncestorTree_height (g : Graph) :
    ∀ (fuel : Nat) (ido : Option String) (t : AncTree),
      buildAncestorTree g fuel ido = some t → ancTreeHeight t ≤ fuel := by
  intro fuel
  induction fuel with
  | zero => intro ido t h; simp [buildAncestorTree] at h
  | succ fuel ih =>
    intro ido t h
    simp only [buildAncestorTree] at h
    split at h
    · cases h
    · split at h
      · cases h
      · split at h
        · cases h
        · split at h
          · split at h
            · next fam heq =>
              obtain rfl := Option.some.inj h
              have hslot : ∀ (ido' : Option String),
                  ancTreeHeight (slotOf (buildAncestorTree g fuel ido')) ≤ fuel := by
                intro ido'
                cases hf : buildAncestorTree g fuel ido' with
                | none => simp [slotOf, ancTreeHeight]
                | some tf =>
                  have hb := ih ido' tf hf
                  simpa [slotOf] using hb
              have hdf := hslot fam.husbandId
              have hdm := hslot fam.wifeId
              simp only [ancTreeHeight]
              omega
            · obtain rfl := Option.some.inj h
              simp [ancTreeHeight]
          · obtain rfl := Option.some.inj h
            simp [ancTreeHeight]

/-- Claim C2, amended: `_get_ancestors` clamps the requested generation count
to at most 20 in both modes (`generations = min(generations, 20)` before the
mode split), so the call equals the one for `min(g, 20)` and the nested tree
never contains an ancestor more than 20 parent-links from the start.  The
claimed nested-mode cap of 10 does not exist in the code (the tool-layer
docstring advertises "max 10", but core clamps at 20). -/
theorem claim_C2_generation_clamp (g : Graph) (idA : String) (gens : Int)
    (f : Option String) :
    getAncestors g idA gens f = getAncestors g idA (min gens 20) f ∧
    (∀ t, getAncestors g idA gens none = AncestorsResult.tree (some t) →
      ancTreeHeight t - 1 ≤ 20) := by
  constructor
  · simp only [getAncestors]
    have hmm : min (min gens 20) 20 = min gens 20 := by omega
    rw [hmm]
  · intro t ht
    simp only [getAncestors] at ht
    rw [if_neg (by decide)] at ht
    have hbuild : buildAncestorTree g ((min gens 20 + 1).toNat)
        (some (normalizeLookupId idA)) = some t := by
      injection ht
    have hh := buildAncestorTree_height g _ _ t hbuild
    have hcap : ((min gens 20 + 1).toNat) ≤ 21 := by omega
    omega

/-- The concrete nested tree `_get_ancestors` returns for I5 in `famG`. -/
def c2TreeWitness : AncTree :=
  AncTree.node { id := "@I5@", name := "Cal", birthDate := none, deathDate := none }
    (AncTree.node { id := "@I3@", name := "Ben", birthDate := none, deathDate := none }
      (AncTree.node { id := "@I1@", name := "Abe", birthDate := none, deathDate := none }
        AncTree.absent AncTree.absent)
      (AncTree.node { id := "@I2@", name := "Ada", birthDate := none, deathDate := none }
        AncTree.absent AncTree.absent))
    (AncTree.node { id := "@I4@", name := "Bia", birthDate := none, deathDate := none }
      AncTree.absent AncTree.absent)

theorem claim_C2_witness :
    getAncestors famG "I5" 25 none = getAncestors famG "I5" (min 25 20) none ∧
    ancTreeHeight c2TreeWitness - 1 ≤ 20 :=
  ⟨(claim_C2_generation_clamp famG "I5" 25 none).1,
   (claim_C2_generation_clamp famG "I5" 25 none).2 c2TreeWitness (by decide)⟩

/-- One entry of the `relationships` matrix. -/
structure MatrixEntry where
  id1 : String
  id2 : String
  relationship : Option String
deriving DecidableEq, Repr

/-- `_get_relationship_matrix`'s result dict. -/
structure RelationshipMatrix where
  individuals : List PersonRef
  relationships : List MatrixEntry
  pairCount : Nat
deriving DecidableEq, Repr

/-- `_get_relationship_matrix` lines 763-771: ids surviving validation, in
order, normalized (the `normalized_ids` list built by the loop). -/
def validIds (g : Graph) : List String → List String
  | [] => []
  | idStr :: rest =>
    match alookup g.individuals (normalizeLookupId idStr) with
    | some _ => normalizeLookupId idStr :: validIds g rest
    | none => validIds g rest

/-- The `individuals_info` list built by the same loop. -/
def individualsInfo (g : Graph) : List String → List PersonRef
  | [] => []
  | idStr :: rest =>
    match alookup g.individuals (normalizeLookupId idStr) with
    | some indi =>
      { id := normalizeLookupId idStr, name := some (fullName indi) } ::
        individualsInfo g rest
    | none => individualsInfo g rest

/-- Lines 773-776: one ancestor set per surviving id (cap 10 generations). -/
def ancestorCache (g : Graph) (normalizedIds : List String) :
    List (String × List (String × List Nat)) :=
  normalizedIds.map (fun indiId => (indiId, buildAncestorSet g indiId 10))

/-- `core._get_relationship_with_cache`. -/
def getRelationshipWithCache (g : Graph) (id1 id2 : String)
    (cache : List (String × List (String × List Nat))) : RelResult :=
  let indi1? := alookup g.individuals id1
  let indi2? := alookup g.individuals id2
  let base : RelResult :=
    { individual1 := { id := id1, name := indi1?.map fullName },
      individual2 := { id := id2, name := indi2?.map fullName },
      relationship := none }
  match indi1?, indi2? with
  | some indi1, some indi2 =>
    if id1 = id2 then { base with relationship := some "same person" }
    else if childCheck g indi1 id2 then { base with relationship := some "child" }
    else if childCheck g indi2 id1 then { base with relationship := some "parent" }
    else if spouseCheck g indi1 id2 then { base with relationship := some "spouse" }
    else
      match siblingCheck g indi1 indi2 with
      | some sib => { base with relationship := some sib }
      | none =>
        if grandparentCheck g indi1 id2 then
          { base with relationship := some "grandchild" }
        else if grandparentCheck g indi2 id1 then
          { base with relationship := some "grandparent" }
        else
          let ancestors1 := (alookup cache id1).getD []
          if acontains ancestors1 id2 then
            let nm := ancestorName (listMin ((alookup ancestors1 id2).getD []))
            { base with relationship := some nm }
          else
            let ancestors2 := (alookup cache id2).getD []
            if acontains ancestors2 id1 then
              let nm := descendantName (listMin ((alookup ancestors2 id1).getD []))
              { base with relationship := some nm }
            else if auntUncleCheck g indi1 id2 then
              { base with relationship := some "niece/nephew" }
            else if auntUncleCheck g indi2 id1 then
              { base with relationship := some "aunt/uncle" }
            else
              let commonIds := (akeys ancestors1).filter (fun k => acontains ancestors2 k)
              let notRelated :=
                { base with relationship := some "not related (within 10 generations)" }
              if commonIds.isEmpty then notRelated
              else
                match closestCommonFold ancestors1 ancestors2 commonIds none with
                | some (_closestId, gen1, gen2) =>
                  -- the source's `if closest:` tests a tuple, which is always
                  -- truthy, so unlike `_get_relationship` there is no
                  -- empty-string guard here
                  let cousinDegree := min gen1 gen2 - 1
                  let removal := max gen1 gen2 - min gen1 gen2
                  if 1 ≤ cousinDegree then
                    let ord := ordinal cousinDegree
                    let rel :=
                      if removal = 0 then ord ++ " cousin"
                      else if removal = 1 then ord ++ " cousin once removed"
                      else if removal = 2 then ord ++ " cousin twice removed"
                      else ord ++ " cousin " ++ toString removal ++ "x removed"
                    { base with relationship := some rel }
                  else notRelated
                | none => notRelated
  | _, _ => { base with relationship := none }

/-- Lines 779-789: the pair loop `for i, id1 … for id2 in ids[i+1:]`. -/
def matrixPairs (g : Graph) (cache : List (String × List (String × List Nat))) :
    List String → List MatrixEntry
  | [] => []
  | id1 :: rest =>
    rest.map (fun id2 =>
      { id1 := id1, id2 := id2,
        relationship := (getRelationshipWithCache g id1 id2 cache).relationship }) ++
    matrixPairs g cache rest

/-- `core._get_relationship_matrix`. -/
def getRelationshipMatrix (g : Graph) (individualIds : List String) :
    RelationshipMatrix :=
  let normalizedIds := validIds g individualIds
  let cache := ancestorCache g normalizedIds
  let relationships := matrixPairs g cache normalizedIds
  { individuals := individualsInfo g individualIds,
    relationships := relationships,
    pairCount := relationships.length }

example : (getRelationshipMatrix famG ["I1", "I3", "NOPE", "I5"]).relationships =
    [ { id1 := "@I1@", id2 := "@I3@", relationship := some "parent" },
      { id1 := "@I1@", id2 := "@I5@", relationship := some "grandparent" },
      { id1 := "@I3@", id2 := "@I5@", relationship := some "parent" } ] := by decide

example : (getRelationshipMatrix famG ["I1", "I3", "NOPE", "I5"]).pairCount = 3 := by
  decide

theorem presentId_isEmpty_false {o : Option String} {s : String}
    (h : presentId o = some s) : s.isEmpty = false := by
  cases o with
  | none => simp [presentId] at h
  | some t =>
    simp only [presentId] at h
    split at h
    · cases h
    · next hne => exact (Option.some.inj h) ▸ (Bool.not_eq_true _).mp hne

/-- Every key the traversal adds comes from a truthiness check on the parent
id, so no key of the resulting map is the empty string. -/
theorem ancestorTraverse_keys_nonempty (g : Graph) :
    ∀ (b : Nat) (indiId : String) (generation : Nat)
      (acc : List (String × List Nat)),
      (∀ a, acontains acc a = true → a.isEmpty = false) →
      ∀ a, acontains (ancestorTraverse g b indiId generation acc) a = true →
        a.isEmpty = false := by
  intro b
  induction b with
  | zero =>
    intro indiId generation acc hacc a h
    rw [ancestorTraverse] at h
    exact hacc a h
  | succ b ih =>
    intro indiId generation acc hacc a h
    by_cases hemp : indiId.isEmpty
    · simp only [ancestorTraverse, if_pos hemp] at h
      exact hacc a h
    · simp only [ancestorTraverse, if_neg hemp] at h
      cases hindi : alookup g.individuals indiId with
      | none => simp only [hindi] at h; exact hacc a h
      | some indi =>
        simp only [hindi] at h
        cases hfam : getFamC g indi with
        | none => simp only [hfam] at h; exact hacc a h
        | some fam =>
          simp only [hfam] at h
          have haddNE : ∀ (p : String) (m : List (String × List Nat)),
              p.isEmpty = false →
              (∀ a, acontains m a = true → a.isEmpty = false) →
              ∀ a, acontains (addGen m p generation) a = true →
                a.isEmpty = false := by
            intro p m hp hm a' ha'
            rcases (acontains_addGen m p generation a').1 ha' with heq | ha'
            · exact heq ▸ hp
            · exact hm a' ha'
          cases hh : presentId fam.husbandId with
          | none =>
            simp only [hh] at h
            cases hw : presentId fam.wifeId with
            | none => simp only [hw] at h; exact hacc a h
            | some q =>
              simp only [hw] at h
              have hq : q.isEmpty = false := presentId_isEmpty_false hw
              by_cases hacW : acontains g.individuals q
              · rw [if_pos hacW] at h
                exact ih q (generation + 1) _ (haddNE q acc hq hacc) a h
              · rw [if_neg hacW] at h; exact hacc a h
          | some p =>
            simp only [hh] at h
            have hp : p.isEmpty = false := presentId_isEmpty_false hh
            by_cases hacH : acontains g.individuals p
            · rw [if_pos hacH] at h
              have hH : ∀ a,
                  acontains (ancestorTraverse g b p (generation + 1)
                    (addGen acc p generation)) a = true → a.isEmpty = false :=
                ih p (generation + 1) _ (haddNE p acc hp hacc)
              cases hw : presentId fam.wifeId with
              | none => simp only [hw] at h; exact hH a h
              | some q =>
                simp only [hw] at h
                have hq : q.isEmpty = false := presentId_isEmpty_false hw
                by_cases hacW : acontains g.individuals q
                · rw [if_pos hacW] at h
                  exact ih q (generation + 1) _ (haddNE q _ hq hH) a h
                · rw [if_neg hacW] at h; exact hH a h
            · rw [if_neg hacH] at h
              cases hw : presentId fam.wifeId with
              | none => simp only [hw] at h; exact hacc a h
              | some q =>
                simp only [hw] at h
                have hq : q.isEmpty = false := presentId_isEmpty_false hw
                by_cases hacW : acontains g.individuals q
                · rw [if_pos hacW] at h
                  exact ih q (generation + 1) _ (haddNE q acc hq hacc) a h
                · rw [if_neg hacW] at h; exact hacc a h

theorem buildAncestorSet_keys_nonempty (g : Graph) (idA : String) (m : Nat)
    (a : String) (h : acontains (buildAncestorSet g idA m) a = true) :
    a.isEmpty = false := by
  refine ancestorTraverse_keys_nonempty g m (normalizeLookupId idA) 1 [] ?_ a h
  intro a' h'
  simp [acontains, alookup] at h'

theorem acontains_of_mem_akeys {α : Type} :
    ∀ (m : List (String × α)) (k : String), k ∈ akeys m → acontains m k = true := by
  intro m
  induction m with
  | nil => intro k h; simp [akeys] at h
  | cons hd tl ih =>
    intro k h
    obtain ⟨k', v⟩ := hd
    simp only [akeys, List.map_cons, List.mem_cons] at h
    by_cases hk : k' = k
    · simp [acontains, alookup, hk]
    · rcases h with h | h
      · exact absurd h.symm hk
      · have := ih k (by simpa [akeys] using h)
        simpa [acontains, alookup, hk] using this

/-- The winner of the closest-common-ancestor fold is either the initial
candidate or one of the folded ids. -/
theorem closestCommonFold_mem (anc1 anc2 : List (String × List Nat)) :
    ∀ (ids : List String) (best : Option (String × Nat × Nat)) (cid : String)
      (g1 g2 : Nat),
      closestCommonFold anc1 anc2 ids best = some (cid, g1, g2) →
      best = some (cid, g1, g2) ∨ cid ∈ ids := by
  intro ids
  induction ids with
  | nil =>
    intro best cid g1 g2 h
    rw [closestCommonFold] at h
    exact Or.inl h
  | cons aid rest ih =>
    intro best cid g1 g2 h
    simp only [closestCommonFold] at h
    rcases ih _ cid g1 g2 h with hbest | hmem
    · cases best with
      | none =>
        simp only [Option.some.injEq, Prod.mk.injEq] at hbest
        obtain ⟨rfl, -, -⟩ := hbest
        exact Or.inr (List.mem_cons_self _ _)
      | some b =>
        obtain ⟨bId, b1, b2⟩ := b
        simp only at hbest
        split at hbest
        · simp only [Option.some.injEq, Prod.mk.injEq] at hbest
          obtain ⟨rfl, -, -⟩ := hbest
          exact Or.inr (List.mem_cons_self _ _)
        · exact Or.inl hbest
    · exact Or.inr (List.mem_cons_of_mem _ hmem)

/-- On already-normalized ids whose ancestor sets the cache stores at depth
10, the cached classifier computes the same relationship string as the
direct classifier at `max_generations = 10`. -/
theorem withCache_relationship_eq (g : Graph) (id1 id2 : String)
    (cache : List (String × List (String × List Nat)))
    (hn1 : normalizeLookupId id1 = id1) (hn2 : normalizeLookupId id2 = id2)
    (hc1 : alookup cache id1 = some (buildAncestorSet g id1 10))
    (hc2 : alookup cache id2 = some (buildAncestorSet g id2 10)) :
    (getRelationshipWithCache g id1 id2 cache).relationship =
      (getRelationship g id1 id2 (some 10)).relationship := by
  simp only [getRelationship, getRelationshipWithCache, hn1, hn2, hc1, hc2,
    searchDepthOf, Option.getD]
  cases hlk1 : alookup g.individuals id1 with
  | none => cases hlk2 : alookup g.individuals id2 <;> rfl
  | some indi1 =>
    cases hlk2 : alookup g.individuals id2 with
    | none => rfl
    | some indi2 =>
      dsimp only
      by_cases h1 : id1 = id2
      · simp only [if_pos h1]
      · simp only [if_neg h1]
        by_cases h2 : childCheck g indi1 id2 = true
        · simp only [if_pos h2]
        · simp only [if_neg h2]
          by_cases h3 : childCheck g indi2 id1 = true
          · simp only [if_pos h3]
          · simp only [if_neg h3]
            by_cases h4 : spouseCheck g indi1 id2 = true
            · simp only [if_pos h4]
            · simp only [if_neg h4]
              cases h5 : siblingCheck g indi1 indi2 with
              | some s => rfl
              | none =>
                dsimp only
                by_cases h6 : grandparentCheck g indi1 id2 = true
                · simp only [if_pos h6]
                · simp only [if_neg h6]
                  by_cases h7 : grandparentCheck g indi2 id1 = true
                  · simp only [if_pos h7]
                  · simp only [if_neg h7]
                    by_cases h8 : acontains (buildAncestorSet g id1 10) id2 = true
                    · simp only [if_pos h8]
                    · simp only [if_neg h8]
                      by_cases h9 : acontains (buildAncestorSet g id2 10) id1 = true
                      · simp only [if_pos h9]
                      · simp only [if_neg h9]
                        by_cases h10 : auntUncleCheck g indi1 id2 = true
                        · simp only [if_pos h10]
                        · simp only [if_neg h10]
                          by_cases h11 : auntUncleCheck g indi2 id1 = true
                          · simp only [if_pos h11]
                          · simp only [if_neg h11]
                            by_cases h12 :
                                ((akeys (buildAncestorSet g id1 10)).filter
                                  (fun k => acontains (buildAncestorSet g id2 10) k)).isEmpty
                                  = true
                            · simp only [if_pos h12]
                              rfl
                            · simp only [if_neg h12]
                              cases hfold :
                                  closestCommonFold (buildAncestorSet g id1 10)
                                    (buildAncestorSet g id2 10)
                                    ((akeys (buildAncestorSet g id1 10)).filter
                                      (fun k => acontains (buildAncestorSet g id2 10) k))
                                    none with
                              | none => rfl
                              | some trip =>
                                obtain ⟨cid, gen1, gen2⟩ := trip
                                have hmem : cid ∈
                                    (akeys (buildAncestorSet g id1 10)).filter
                                      (fun k => acontains (buildAncestorSet g id2 10) k) := by
                                  rcases closestCommonFold_mem _ _ _ _ _ _ _ hfold
                                    with hmm | hmm
                                  · exact absurd hmm (by simp)
                                  · exact hmm
                                have hne : cid.isEmpty = false :=
                                  buildAncestorSet_keys_nonempty g id1 10 cid
                                    (acontains_of_mem_akeys _ _ (List.mem_filter.mp hmem).1)
                                dsimp only
                                rw [if_neg (show ¬(cid.isEmpty = true) by simp [hne])]
                                simp only [cousinLabelBranch]
                                by_cases hdeg : 1 ≤ min gen1 gen2 - 1
                                · simp only [if_pos hdeg]
                                · simp only [if_neg hdeg]
                                  rfl

theorem ancestorCache_lookup (g : Graph) :
    ∀ (ids : List String) (x : String), x ∈ ids →
      alookup (ancestorCache g ids) x = some (buildAncestorSet g x 10) := by
  intro ids
  induction ids with
  | nil => intro x h; simp at h
  | cons i rest ih =>
    intro x h
    simp only [ancestorCache, List.map_cons, alookup]
    by_cases hi : i = x
    · rw [if_pos hi, hi]
    · rw [if_neg hi]
      rcases List.mem_cons.mp h with heq | hmem
      · exact absurd heq.symm hi
      · simpa [ancestorCache] using ih x hmem

/-- Every id that survives the matrix's validation loop is already in
normalized form. -/
theorem validIds_normalized (g : Graph) :
    ∀ (ids : List String) (x : String), x ∈ validIds g ids →
      normalizeLookupId x = x := by
  intro ids
  induction ids with
  | nil => intro x h; simp [validIds] at h
  | cons i rest ih =>
    intro x h
    simp only [validIds] at h
    cases hlk : alookup g.individuals (normalizeLookupId i) with
    | none => simp only [hlk] at h; exact ih x h
    | some indi =>
      simp only [hlk] at h
      rcases List.mem_cons.mp h with heq | hmem
      · rw [heq]; exact normalizeLookupId_idem i
      · exact ih x hmem

/-- Twice the number of generated pairs is `n * (n - 1)` for `n` ids. -/
theorem matrixPairs_sq (g : Graph) (cache : List (String × List (String × List Nat))) :
    ∀ ids : List String,
      2 * (matrixPairs g cache ids).length = ids.length * (ids.length - 1) := by
  intro ids
  induction ids with
  | nil => rfl
  | cons x rest ih =>
    simp only [matrixPairs, List.length_append, List.length_map, List.length_cons]
    rw [Nat.add_sub_cancel, Nat.mul_add, ih]
    generalize rest.length = n
    cases n with
    | zero => simp
    | succ m =>
      simp only [Nat.add_sub_cancel]
      ring

/-- Every generated entry pairs two of the input ids and records the cached
classifier's relationship for them. -/
theorem matrixPairs_mem (g : Graph) (cache : List (String × List (String × List Nat))) :
    ∀ (ids : List String) (e : MatrixEntry), e ∈ matrixPairs g cache ids →
      e.id1 ∈ ids ∧ e.id2 ∈ ids ∧
        e.relationship = (getRelationshipWithCache g e.id1 e.id2 cache).relationship := by
  intro ids
  induction ids with
  | nil => intro e h; simp [matrixPairs] at h
  | cons x rest ih =>
    intro e h
    simp only [matrixPairs, List.mem_append, List.mem_map] at h
    rcases h with ⟨id2, hid2, rfl⟩ | h
    · exact ⟨List.mem_cons_self _ _, List.mem_cons_of_mem _ hid2, rfl⟩
    · obtain ⟨h1, h2, h3⟩ := ih e h
      exact ⟨List.mem_cons_of_mem _ h1, List.mem_cons_of_mem _ h2, h3⟩

/-- Claim C1: for a list of identifiers of which `k` resolve to distinct
known individuals, `_get_relationship_matrix` returns exactly `k*(k-1)/2`
relationship entries (which is also its reported `pair_count`), and every
entry's relationship string equals the `relationship` field that
`_get_relationship` returns when called directly on that pair with
`max_generations = 10`. -/
theorem claim_C1_matrix_refines (g : Graph) (ids : List String) (k : Nat)
    (_hnd : (validIds g ids).Nodup)
    (hk : k = (validIds g ids).length) :
    (getRelationshipMatrix g ids).relationships.length = k * (k - 1) / 2 ∧
    (getRelationshipMatrix g ids).pairCount =
      (getRelationshipMatrix g ids).relationships.length ∧
    ∀ e ∈ (getRelationshipMatrix g ids).relationships,
      e.relationship = (getRelationship g e.id1 e.id2 (some 10)).relationship := by
  subst hk
  refine ⟨?_, rfl, ?_⟩
  · have h := matrixPairs_sq g (ancestorCache g (validIds g ids)) (validIds g ids)
    show (matrixPairs g (ancestorCache g (validIds g ids)) (validIds g ids)).length = _
    omega
  · intro e he
    obtain ⟨h1, h2, h3⟩ :=
      matrixPairs_mem g (ancestorCache g (validIds g ids)) (validIds g ids) e he
    rw [h3]
    exact withCache_relationship_eq g e.id1 e.id2 _
      (validIds_normalized g ids e.id1 h1) (validIds_normalized g ids e.id2 h2)
      (ancestorCache_lookup g _ e.id1 h1) (ancestorCache_lookup g _ e.id2 h2)

theorem claim_C1_witness :
    (getRelationshipMatrix famG ["I1", "I3", "NOPE", "I5"]).relationships.length =
      3 * (3 - 1) / 2 ∧
    ∀ e ∈ (getRelationshipMatrix famG ["I1", "I3", "NOPE", "I5"]).relationships,
      e.relationship = (getRelationship famG e.id1 e.id2 (some 10)).relationship :=
  ⟨(claim_C1_matrix_refines famG ["I1", "I3", "NOPE", "I5"] 3 (by decide) (by decide)).1,
   (claim_C1_matrix_refines famG ["I1", "I3", "NOPE", "I5"] 3 (by decide)
     (by decide)).2.2⟩

/-- Record one more path to an ancestor, mirroring
`if parent_id not in ancestor_paths: ancestor_paths[parent_id] = []` followed
by `ancestor_paths[parent_id].append(new_path)`. -/
def addPath : List (String × List (List String)) → String → List String →
    List (String × List (List String))
  | [], k, p => [(k, [p])]
  | (k', v) :: rest, k, p =>
    if k' = k then (k', v ++ [p]) :: rest else (k', v) :: addPath rest k p

/-- The recursive `traverse` worker of `core._detect_pedigree_collapse`
(lines 1047-1067).  `budget = max_generations + 1 - generation`; `budget = 0`
is the source guard `generation > max_generations`. -/
def collapseTraverse (g : Graph) : Nat → String → List String →
    List (String × List (List String)) → List (String × List (List String))
  | 0, _, _, acc => acc
  | budget + 1, indiId, path, acc =>
    match alookup g.individuals indiId with
    | none => acc
    | some indi =>
      match getFamC g indi with
      | none => acc
      | some fam =>
        let afterHusband :=
          match presentId fam.husbandId with
          | some parentId =>
            if acontains g.individuals parentId then
              collapseTraverse g budget parentId (path ++ [parentId])
                (addPath acc parentId (path ++ [parentId]))
            else acc
          | none => acc
        match presentId fam.wifeId with
        | some parentId =>
          if acontains g.individuals parentId then
            collapseTraverse g budget parentId (path ++ [parentId])
              (addPath afterHusband parentId (path ++ [parentId]))
          else afterHusband
        | none => afterHusband

/-- The `ancestor_paths` map built by `_detect_pedigree_collapse` before the
collapse points are extracted. -/
def ancestorPaths (g : Graph) (lookupId : String) (maxGenerations : Nat) :
    List (String × List (List String)) :=
  collapseTraverse g maxGenerations lookupId [lookupId] []

/-- One collapse-point dict of `_detect_pedigree_collapse`. -/
structure CollapsePoint where
  ancestorId : String
  ancestorName : String
  paths : List (List String)
  generations : List Nat
  occurrenceCount : Nat
deriving DecidableEq, Repr

/-- `_detect_pedigree_collapse`'s result dict (`total_collapse_ancestors`
is absent, `none`, in the error case). -/
structure CollapseResult where
  individual : PersonRef
  collapsePoints : List CollapsePoint
  totalCollapseAncestors : Option Nat := none
  error : Option String := none
deriving DecidableEq, Repr

/-- The `collapse_data` list (lines 1073-1090): one `(occurrence_count,
point)` pair per ancestor with more than one recorded path. -/
def collapseData (g : Graph) (m : List (String × List (List String))) :
    List (Nat × CollapsePoint) :=
  m.filterMap (fun kv =>
    if 1 < kv.2.length then
      match alookup g.individuals kv.1 with
      | some ancestor =>
        some (kv.2.length,
          { ancestorId := kv.1, ancestorName := fullName ancestor,
            paths := kv.2,
            generations := kv.2.map (fun p => p.length - 1),
            occurrenceCount := kv.2.length })
      | none => none
    else none)

/-- `core._detect_pedigree_collapse`.  The sort by `-occurrence_count`
(stable, ascending) is the stable descending sort by occurrence count. -/
def detectPedigreeCollapse (g : Graph) (individualId : String)
    (maxGenerations : Nat) : CollapseResult :=
  let lookupId := normalizeLookupId individualId
  match alookup g.individuals lookupId with
  | none =>
    { individual := { id := lookupId, name := none },
      collapsePoints := [],
      error := some "Individual not found" }
  | some indi =>
    let aps := ancestorPaths g lookupId maxGenerations
    let sorted := stableSortBy (fun a b => decide (b.1 ≤ a.1)) (collapseData g aps)
    let points := sorted.map (·.2)
    { individual := { id := lookupId, name := some (fullName indi) },
      collapsePoints := points,
      totalCollapseAncestors := some points.length }

theorem acontains_addPath (m : List (String × List (List String))) (k : String)
    (p : List String) (a : String) :
    acontains (addPath m k p) a ↔ (k = a ∨ acontains m a) := by
  induction m with
  | nil => by_cases hk : k = a <;> simp [addPath, acontains, alookup, hk]
  | cons hd tl ih =>
    obtain ⟨k', v⟩ := hd
    by_cases hk : k' = k
    · rw [show addPath ((k', v) :: tl) k p = (k', v ++ [p]) :: tl from by
        simp [addPath, hk]]
      by_cases ha : k' = a <;>
        simp [acontains, alookup, ha, hk ▸ ha]
    · rw [show addPath ((k', v) :: tl) k p = (k', v) :: addPath tl k p from by
        simp [addPath, hk]]
      by_cases ha : k' = a
      · simp [acontains, alookup, ha]
      · simpa [acontains, alookup, ha] using ih

/-- Every key of the path map passes the `parent_id in state.individuals`
check, so it names a known individual. -/
theorem collapseTraverse_keys_known (g : Graph) :
    ∀ (b : Nat) (indiId : String) (path : List String)
      (acc : List (String × List (List String))),
      (∀ a, acontains acc a = true → acontains g.individuals a = true) →
      ∀ a, acontains (collapseTraverse g b indiId path acc) a = true →
        acontains g.individuals a = true := by
  intro b
  induction b with
  | zero =>
    intro indiId path acc hacc a h
    rw [collapseTraverse] at h
    exact hacc a h
  | succ b ih =>
    intro indiId path acc hacc a h
    rw [collapseTraverse] at h
    cases hindi : alookup g.individuals indiId with
    | none => simp only [hindi] at h; exact hacc a h
    | some indi =>
      simp only [hindi] at h
      cases hfam : getFamC g indi with
      | none => simp only [hfam] at h; exact hacc a h
      | some fam =>
        simp only [hfam] at h
        have haddK : ∀ (p : String) (pa : List String)
            (m : List (String × List (List String))),
            acontains g.individuals p = true →
            (∀ a, acontains m a = true → acontains g.individuals a = true) →
            ∀ a, acontains (addPath m p pa) a = true →
              acontains g.individuals a = true := by
          intro p pa m hp hm a' ha'
          rcases (acontains_addPath m p pa a').1 ha' with heq | ha'
          · exact heq ▸ hp
          · exact hm a' ha'
        cases hh : presentId fam.husbandId with
        | none =>
          simp only [hh] at h
          cases hw : presentId fam.wifeId with
          | none => simp only [hw] at h; exact hacc a h
          | some q =>
            simp only [hw] at h
            by_cases hacW : acontains g.individuals q
            · rw [if_pos hacW] at h
              exact ih q _ _ (haddK q _ acc hacW hacc) a h
            · rw [if_neg hacW] at h; exact hacc a h
        | some p =>
          simp only [hh] at h
          by_cases hacH : acontains g.individuals p
          · rw [if_pos hacH] at h
            have hH : ∀ a, acontains (collapseTraverse g b p (path ++ [p])
                (addPath acc p (path ++ [p]))) a = true →
                acontains g.individuals a = true :=
              ih p _ _ (haddK p _ acc hacH hacc)
            cases hw : presentId fam.wifeId with
            | none => simp only [hw] at h; exact hH a h
            | some q =>
              simp only [hw] at h
              by_cases hacW : acontains g.individuals q
              · rw [if_pos hacW] at h
                exact ih q _ _ (haddK q _ _ hacW hH) a h
              · rw [if_neg hacW] at h; exact hH a h
          · rw [if_neg hacH] at h
            cases hw : presentId fam.wifeId with
            | none => simp only [hw] at h; exact hacc a h
            | some q =>
              simp only [hw] at h
              by_cases hacW : acontains g.individuals q
              · rw [if_pos hacW] at h
                exact ih q _ _ (haddK q _ acc hacW hacc) a h
              · rw [if_neg hacW] at h; exact hacc a h

theorem ancestorPaths_keys_known (g : Graph) (lookupId : String) (maxg : Nat)
    (a : String) (h : acontains (ancestorPaths g lookupId maxg) a = true) :
    acontains g.individuals a = true := by
  refine collapseTraverse_keys_known g maxg lookupId [lookupId] [] ?_ a h
  intro a' h'
  simp [acontains, alookup] at h'

/-- In every `collapse_data` pair the sort key is the point's occurrence
count. -/
theorem collapseData_key_eq (g : Graph) (m : List (String × List (List String))) :
    ∀ x ∈ collapseData g m, x.1 = x.2.occurrenceCount := by
  intro x hx
  simp only [collapseData, List.mem_filterMap] at hx
  obtain ⟨kv, hkv, hfx⟩ := hx
  by_cases hlen : 1 < kv.2.length
  · rw [if_pos hlen] at hfx
    cases hanc : alookup g.individuals kv.1 with
    | none => simp only [hanc] at hfx; cases hfx
    | some a =>
      simp only [hanc] at hfx
      cases hfx
      rfl
  · rw [if_neg hlen] at hfx
    cases hfx

/-- Claim C8: for every known individual, every ancestor recorded with more
than one parent path within `max_generations` appears among the collapse
points with `occurrence_count` equal to the number of recorded paths, all
those paths listed, one `generations` entry equal to `path length - 1` per
path, and the collapse points sorted in descending order of occurrence
count. -/
theorem claim_C8_pedigree_collapse (g : Graph) (idA : String) (maxg : Nat)
    (indi : Individual)
    (hindi : alookup g.individuals (normalizeLookupId idA) = some indi)
    (aid : String) (ps : List (List String))
    (hps : alookup (ancestorPaths g (normalizeLookupId idA) maxg) aid = some ps)
    (hmulti : 1 < ps.length) :
    (∃ cp ∈ (detectPedigreeCollapse g idA maxg).collapsePoints,
        cp.ancestorId = aid ∧ cp.occurrenceCount = ps.length ∧
        cp.paths = ps ∧ cp.generations = ps.map (fun p => p.length - 1)) ∧
    List.Pairwise (fun a b => b.occurrenceCount ≤ a.occurrenceCount)
      (detectPedigreeCollapse g idA maxg).collapsePoints := by
  have hknown : acontains g.individuals aid = true := by
    refine ancestorPaths_keys_known g (normalizeLookupId idA) maxg aid ?_
    simp [acontains, hps]
  obtain ⟨anc, hancEq⟩ : ∃ a, alookup g.individuals aid = some a := by
    simpa [acontains, Option.isSome_iff_exists] using hknown
  have htrans : ∀ a b c : Nat × CollapsePoint,
      decide (b.1 ≤ a.1) = true → decide (c.1 ≤ b.1) = true →
      decide (c.1 ≤ a.1) = true := by
    intro a b c h1 h2
    simp only [decide_eq_true_eq] at h1 h2 ⊢
    omega
  have htotal : ∀ a b : Nat × CollapsePoint,
      decide (b.1 ≤ a.1) = true ∨ decide (a.1 ≤ b.1) = true := by
    intro a b
    simp only [decide_eq_true_eq]
    omega
  simp only [detectPedigreeCollapse, hindi]
  constructor
  · refine ⟨CollapsePoint.mk aid (fullName anc) ps (ps.map (fun p => p.length - 1))
        ps.length, ?_, rfl, rfl, rfl, rfl⟩
    have hmemData : (ps.length, CollapsePoint.mk aid (fullName anc) ps
          (ps.map (fun p => p.length - 1)) ps.length) ∈
        collapseData g (ancestorPaths g (normalizeLookupId idA) maxg) := by
      simp only [collapseData, List.mem_filterMap]
      refine ⟨(aid, ps), alookup_mem _ _ _ hps, ?_⟩
      simp [hmulti, hancEq]
    have hmemSorted :=
      (stableSortBy_perm (fun a b : Nat × CollapsePoint => decide (b.1 ≤ a.1))
        (collapseData g (ancestorPaths g (normalizeLookupId idA) maxg))).mem_iff.2
        hmemData
    exact List.mem_map_of_mem _ hmemSorted
  · have hsorted := pairwise_stableSortBy
      (fun a b : Nat × CollapsePoint => decide (b.1 ≤ a.1)) htrans htotal
      (collapseData g (ancestorPaths g (normalizeLookupId idA) maxg))
    simp only [List.pairwise_map]
    refine hsorted.imp_of_mem ?_
    intro a b ha hb hr
    have hka := collapseData_key_eq g _ a
      ((stableSortBy_perm _ _).mem_iff.1 ha)
    have hkb := collapseData_key_eq g _ b
      ((stableSortBy_perm _ _).mem_iff.1 hb)
    have hba : b.1 ≤ a.1 := of_decide_eq_true hr
    omega

/-- Collapse graph: X's parents P1, P2 are (incestuously) full siblings, so
grandparents G and H are each reached via two distinct parent chains. -/
def iXan : Individual := { id := "@X@", givenName := "Xan", familyAsChild := some "@FX@" }

def iPa1 : Individual :=
  { id := "@P1@", givenName := "Pa", familyAsChild := some "@FGP@",
    familiesAsSpouse := ["@FX@"] }

def iPa2 : Individual :=
  { id := "@P2@", givenName := "Ma", familyAsChild := some "@FGP@",
    familiesAsSpouse := ["@FX@"] }

def iGee : Individual := { id := "@G@", givenName := "Gee", familiesAsSpouse := ["@FGP@"] }

def iHan : Individual := { id := "@H@", givenName := "Han", familiesAsSpouse := ["@FGP@"] }

def collapseG : Graph :=
  { individuals :=
      [ ("@X@", iXan), ("@P1@", iPa1), ("@P2@", iPa2), ("@G@", iGee), ("@H@", iHan) ],
    families :=
      [ ("@FX@", { id := "@FX@", husbandId := some "@P1@", wifeId := some "@P2@",
                   childrenIds := ["@X@"] }),
        ("@FGP@", { id := "@FGP@", husbandId := some "@G@", wifeId := some "@H@",
                    childrenIds := ["@P1@", "@P2@"] }) ] }

example : alookup (ancestorPaths collapseG "@X@" 10) "@G@" =
    some [["@X@", "@P1@", "@G@"], ["@X@", "@P2@", "@G@"]] := by decide

example : (detectPedigreeCollapse collapseG "X" 10).collapsePoints.map
    (fun cp => (cp.ancestorId, cp.occurrenceCount)) = [("@G@", 2), ("@H@", 2)] := by
  decide

/-- Python `\w` (ASCII range; the date strings involved are ASCII). -/
def isWordChar (c : Char) : Bool := c.isAlphanum || c = '_'

/-- Leftmost `\b(\d{4})\b` match of `helpers.extract_year`'s regex: scan for
the first position whose previous character (if any) is not a word
character, followed by four digits and then a non-word character or the end
of the string. -/
def yearAt (prev : Option Char) : List Char → Option Nat
  | c1 :: c2 :: c3 :: c4 :: rest =>
    if (match prev with | some p => !isWordChar p | none => true) &&
        c1.isDigit && c2.isDigit && c3.isDigit && c4.isDigit &&
        (match rest with | [] => true | r :: _ => !isWordChar r) then
      some ((c1.toNat - 48) * 1000 + (c2.toNat - 48) * 100 +
        (c3.toNat - 48) * 10 + (c4.toNat - 48))
    else yearAt (some c1) (c2 :: c3 :: c4 :: rest)
  | _ => none

/-- `helpers.extract_year` (`None`/empty date strings have no year). -/
def extractYear : Option String → Option Nat
  | none => none
  | some s => if s.isEmpty then none else yearAt none s.data

/-- `constants.PLACE_ABBREVIATIONS`, in insertion order. -/
def PLACE_ABBREVIATIONS : List (String × String) :=
  [ ("st.", "saint"), ("st ", "saint "), ("co.", "county"), ("co ", "county "),
    ("mt.", "mount"), ("mt ", "mount "), ("ft.", "fort"), ("ft ", "fort "),
    ("n.y.", "new york"), ("n.y", "new york"), ("nyc", "new york city"),
    ("l.a.", "los angeles"), ("d.c.", "district of columbia"),
    ("u.s.a.", "united states"), ("usa", "united states"),
    ("u.s.", "united states"), ("u.k.", "united kingdom"),
    ("uk", "united kingdom") ]

/-- Python `str.replace` (all non-overlapping occurrences, left to right),
with a character-count fuel so the recursion is structural; the fuel
`l.length` always suffices because every step consumes at least one
character of the remaining input. -/
def replaceGo (pat repl : List Char) : Nat → List Char → List Char
  | _, [] => []
  | 0, l => l
  | fuel + 1, c :: rest =>
    if pat.isPrefixOf (c :: rest) then
      repl ++ replaceGo pat repl fuel (List.drop (pat.length - 1) rest)
    else c :: replaceGo pat repl fuel rest

def replaceList (l pat repl : List Char) : List Char :=
  if pat.isEmpty then l else replaceGo pat repl l.length l

/-- Python `str.strip()` (whitespace on both ends). -/
def trimL (l : List Char) : List Char :=
  ((l.dropWhile Char.isWhitespace).reverse.dropWhile Char.isWhitespace).reverse

/-- Python `str.split()` with no separator: split on whitespace runs,
dropping empty tokens. -/
def splitWsGo (cur : List Char) : List Char → List (List Char)
  | [] => if cur.isEmpty then [] else [cur.reverse]
  | c :: rest =>
    if c.isWhitespace then
      if cur.isEmpty then splitWsGo [] rest
      else cur.reverse :: splitWsGo [] rest
    else splitWsGo (c :: cur) rest

/-- `helpers.normalize_place_string`: lowercase, strip, expand the
abbreviation table in insertion order, collapse whitespace. -/
def normalizePlaceString (place : String) : String :=
  let lowered := trimL (place.data.map Char.toLower)
  let replaced := PLACE_ABBREVIATIONS.foldl
    (fun r ab => replaceList r ab.1.data ab.2.data) lowered
  String.mk (List.intercalate [' '] (splitWsGo [] replaced))

example : normalizePlaceString "  St. Louis,   MO  " = "saint louis, mo" := by decide

/-- Python `needle in hay` on strings (substring test). -/
def substr (needle : List Char) : List Char → Bool
  | [] => needle.isEmpty
  | c :: rest => needle.isPrefixOf (c :: rest) || substr needle rest

/-- `associates._places_match`, parameterized by the external
`rapidfuzz.fuzz.ratio` scorer (`fuzzScore`, a total function into ℚ). -/
def placesMatch (fuzzScore : String → String → ℚ) (p1 p2 : String)
    (threshold : ℚ) : Bool :=
  if p1 = p2 then true
  else if threshold ≤ fuzzScore p1 p2 then true
  else substr p1.data p2.data || substr p2.data p1.data

/-- `associates._get_lifespan`. -/
def getLifespan (g : Graph) (individualId : String) : Option Nat × Option Nat :=
  match alookup g.individuals individualId with
  | none => (none, none)
  | some indi => (extractYear indi.birthDate, extractYear indi.deathDate)

/-- `estimated_death = death if death else (birth + 80 if birth else None)`
(int truthiness: year 0 counts as missing, as in the source). -/
def estDeath (birth death : Option Nat) : Option Int :=
  if truthyNat death then death.map Int.ofNat
  else if truthyNat birth then some ((birth.getD 0 : Int) + 80)
  else none

def estBirth (birth death : Option Nat) : Option Int :=
  if truthyNat birth then birth.map Int.ofNat
  else if truthyNat death then some ((death.getD 0 : Int) - 80)
  else none

/-- `associates._calculate_lifespan_overlap`. -/
def calculateLifespanOverlap (b1 d1 b2 d2 : Option Nat) : Option Int :=
  if b1 = none ∧ d1 = none then none
  else if b2 = none ∧ d2 = none then none
  else
    match estBirth b1 d1, estDeath b1 d1, estBirth b2 d2, estDeath b2 d2 with
    | some eb1, some ed1, some eb2, some ed2 =>
      let overlapStart := max eb1 eb2
      let overlapEnd := min ed1 ed2
      if overlapStart < overlapEnd then some (overlapEnd - overlapStart) else some 0
    | _, _, _, _ => none

/-- One `{type, year, place, place_normalized}` dict of
`_get_events_with_places`. -/
structure PlacedEvent where
  type : String
  year : Option Nat
  place : String
  placeNormalized : String
deriving DecidableEq, Repr

/-- `associates._get_events_with_places`. -/
def getEventsWithPlaces (g : Graph) (individualId : String) : List PlacedEvent :=
  match alookup g.individuals individualId with
  | none => []
  | some indi =>
    let birtEvents : List PlacedEvent :=
      match presentId indi.birthPlace with
      | some bp => [⟨"BIRT", extractYear indi.birthDate, bp, normalizePlaceString bp⟩]
      | none => []
    let deatEvents : List PlacedEvent :=
      match presentId indi.deathPlace with
      | some dp => [⟨"DEAT", extractYear indi.deathDate, dp, normalizePlaceString dp⟩]
      | none => []
    let evs : List PlacedEvent := indi.events.filterMap (fun e =>
      match presentId e.place with
      | some pl => some ⟨e.type, extractYear e.date, pl, normalizePlaceString pl⟩
      | none => none)
    birtEvents ++ deatEvents ++ evs

/-- Python `set.add` determinized as ordered first-insertion lists. -/
def setAdd (s : List String) (x : String) : List String :=
  if s.contains x then s else s ++ [x]

/-- Python `set.update`. -/
def setAddMany (s : List String) (xs : List String) : List String :=
  xs.foldl setAdd s

def dedupAppend (acc : List String) (xs : List String) : List String :=
  setAddMany acc xs

/-- The inner `for target_place in target_places` loop of
`_get_candidate_ids_by_place` (with its `continue`/`break` control flow):
`true` iff the loop reaches `candidates.update(indi_ids)`. -/
def candidateHit (fuzzScore : String → String → ℚ) (placeFilterNorm : Option String)
    (indexedPlace : String) : List String → Bool
  | [] => false
  | t :: rest =>
    if placesMatch fuzzScore t indexedPlace 75 then
      match presentId placeFilterNorm with
      | some pf =>
        if placesMatch fuzzScore pf indexedPlace 70 then true
        else candidateHit fuzzScore placeFilterNorm indexedPlace rest
      | none => true
    else candidateHit fuzzScore placeFilterNorm indexedPlace rest

/-- `associates._get_candidate_ids_by_place` (place-index iteration in
insertion order, the candidate set determinized as a first-insertion
list). -/
def getCandidateIdsByPlace (fuzzScore : String → String → ℚ) (g : Graph)
    (targetPlaces : List String) (placeFilter : Option String) : List String :=
  let placeFilterNorm :=
    match presentId placeFilter with
    | some pf => some (normalizePlaceString pf)
    | none => none
  g.placeIndex.foldl (fun cands entry =>
    if candidateHit fuzzScore placeFilterNorm entry.1 targetPlaces then
      dedupAppend cands entry.2
    else cands) []

/-- One overlap dict recorded by `_calculate_association_strength`. -/
structure OverlapInfo where
  targetEvent : String
  targetYear : Option Nat
  targetPlace : String
  candidateEvent : String
  candidateYear : Option Nat
  candidatePlace : String
  overlapType : String
deriving DecidableEq, Repr

/-- The event-comparison double loop of `_calculate_association_strength`
(strength, overlapping events, matched places).  Strengths are exact
multiples of 0.001, so the float scores 0.15/0.08/0.02/0.03 are modelled
exactly as integer thousandths (150/80/20/30). -/
def assocFold (fuzzScore : String → String → ℚ)
    (targetEvents candEvents : List PlacedEvent) :
    Int × List OverlapInfo × List String :=
  targetEvents.foldl (fun accT t =>
    candEvents.foldl (fun acc c =>
      if placesMatch fuzzScore t.placeNormalized c.placeNormalized 75 then
        let scored : Int × String :=
          match t.year, c.year with
          | some ty, some cy =>
            let yearDiff := if ty ≤ cy then cy - ty else ty - cy
            if yearDiff = 0 then (150, "same_year")
            else if yearDiff ≤ 5 then (80, "within_5_years")
            else (20, "same_place")
          | _, _ => (30, "same_place_unknown_year")
        (acc.1 + scored.1,
         acc.2.1 ++ [⟨t.type, t.year, t.place, c.type, c.year, c.place, scored.2⟩],
         if acc.2.2.contains t.placeNormalized then acc.2.2
         else acc.2.2 ++ [t.placeNormalized])
      else acc) accT) ((0 : Int), [], [])

/-- `associates._calculate_association_strength`, in exact thousandths.
`0.05 * (len - 1)` is `50 * (len - 1)`; the lifespan bonus
`min(overlap / 50, 1.0) * 0.30` is `min (overlap * 20) 1000 * 30 / 100`
(exact: `overlap * 20 * 30 / 100 = overlap * 6` and `1000 * 30 / 100 = 300`);
the final `min(strength, 1.0)` is `min strength 1000`. -/
def calculateAssociationStrength (fuzzScore : String → String → ℚ)
    (targetEvents candEvents : List PlacedEvent)
    (targetBirth targetDeath candBirth candDeath : Option Nat) :
    Int × List OverlapInfo × Option Int :=
  let folded := assocFold fuzzScore targetEvents candEvents
  let matched := folded.2.2
  let s1 :=
    if 1 < matched.length then
      folded.1 + 50 * ((matched.length - 1 : Nat) : Int)
    else folded.1
  let lifespanOverlap :=
    calculateLifespanOverlap targetBirth targetDeath candBirth candDeath
  let s2 :=
    match lifespanOverlap with
    | some lo =>
      if 0 < lo then s1 + min (lo * 20) 1000 * 30 / 100 else s1
    | none => s1
  (min s2 1000, folded.2.1, lifespanOverlap)

/-- The recursive `add_descendants` worker of `_build_relative_set`
(structural on the depth budget; `depth <= 0` stops). -/
def addDescendants (g : Graph) : Nat → String → List String → List String
  | 0, _, rel => rel
  | depth + 1, indiId, rel =>
    match alookup g.individuals indiId with
    | none => rel
    | some desc =>
      desc.familiesAsSpouse.foldl (fun rel famId =>
        match alookup g.families famId with
        | some fam =>
          let spouseId := if fam.husbandId = some indiId then fam.wifeId else fam.husbandId
          let rel :=
            match presentId spouseId with
            | some s => setAdd rel s
            | none => rel
          fam.childrenIds.foldl (fun rel childId =>
            addDescendants g depth childId (setAdd rel childId)) rel
        | none => rel) rel

/-- `associates._build_relative_set` (`max_generations` defaults to 5 at the
single call site in `_find_associates`). -/
def buildRelativeSet (g : Graph) (individualId : String) (maxGenerations : Nat) :
    List String :=
  let relatives := [individualId]
  match alookup g.individuals individualId with
  | none => relatives
  | some indi =>
    let relatives :=
      setAddMany relatives (akeys (buildAncestorSet g individualId maxGenerations))
    let relatives := indi.familiesAsSpouse.foldl (fun rel famId =>
      match alookup g.families famId with
      | some fam =>
        let rel :=
          match presentId fam.husbandId with
          | some h => setAdd rel h
          | none => rel
        let rel :=
          match presentId fam.wifeId with
          | some w => setAdd rel w
          | none => rel
        setAddMany rel fam.childrenIds
      | none => rel) relatives
    let relatives :=
      match getFamC g indi with
      | some fam => setAddMany relatives fam.childrenIds
      | none => relatives
    let relatives := relatives.foldl (fun rel ancestorId =>
      match alookup g.individuals ancestorId with
      | some ancestor =>
        ancestor.familiesAsSpouse.foldl (fun rel famId =>
          match alookup g.families famId with
          | some fam =>
            let rel :=
              match presentId fam.husbandId with
              | some h => setAdd rel h
              | none => rel
            match presentId fam.wifeId with
            | some w => setAdd rel w
            | none => rel
          | none => rel) rel
      | none => rel) relatives
    addDescendants g maxGenerations individualId relatives

/-- The duplicated date-filter loop of `_find_associates` (applied to the
target's events and to each candidate's events): keep events without a
year; drop those outside the requested range (int truthiness on the
bounds). -/
def filterEventsByYears (startYear endYear : Option Nat)
    (events : List PlacedEvent) : List PlacedEvent :=
  events.filter (fun e =>
    match e.year with
    | none => true
    | some y =>
      !((truthyNat startYear && decide (y < startYear.getD 0)) ||
        (truthyNat endYear && decide (endYear.getD 0 < y))))

def applyDateFilter (startYear endYear : Option Nat)
    (events : List PlacedEvent) : List PlacedEvent :=
  if truthyNat startYear || truthyNat endYear then
    filterEventsByYears startYear endYear events
  else events

/-- One associate entry of `_find_associates`' result
(`association_strength` in exact thousandths; `round(strength, 3)` is the
identity on exact thousandths). -/
structure AssociateEntry where
  id : String
  name : String
  birthDate : Option String
  deathDate : Option String
  associationStrength : Int
  overlappingEvents : List OverlapInfo
  lifespanOverlapYears : Option Int
  isRelative : Bool
deriving DecidableEq, Repr

/-- `_find_associates`' result dict (the fields the claims consult;
`time_ms` and the echoed filters are omitted). -/
structure AssociatesResult where
  individual : Option PersonRef
  resultCount : Nat
  associates : List AssociateEntry
  candidatesScanned : Nat
  relativesFiltered : Nat
  error : Option String := none
deriving DecidableEq, Repr

/-- The scoring loop of `_find_associates` (lines 447-503), threading
`(associates, candidates_scanned, relatives_filtered)`. -/
def scoreCandidates (fuzzScore : String → String → ℚ) (g : Graph)
    (targetEvents : List PlacedEvent) (targetBirth targetDeath : Option Nat)
    (startYear endYear : Option Nat) (excludeRelatives : Bool)
    (relatives : List String) :
    List String → List AssociateEntry × Nat × Nat →
      List AssociateEntry × Nat × Nat
  | [], acc => acc
  | candId :: rest, acc =>
    let assocs := acc.1
    let scanned := acc.2.1 + 1
    let filtered := acc.2.2
    let isRel := relatives.contains candId
    if excludeRelatives && isRel then
      scoreCandidates fuzzScore g targetEvents targetBirth targetDeath
        startYear endYear excludeRelatives relatives rest
        (assocs, scanned, filtered + 1)
    else
      match alookup g.individuals candId with
      | none =>
        scoreCandidates fuzzScore g targetEvents targetBirth targetDeath
          startYear endYear excludeRelatives relatives rest
          (assocs, scanned, filtered)
      | some cand =>
        let candEvents := applyDateFilter startYear endYear
          (getEventsWithPlaces g candId)
        if candEvents.isEmpty then
          scoreCandidates fuzzScore g targetEvents targetBirth targetDeath
            startYear endYear excludeRelatives relatives rest
            (assocs, scanned, filtered)
        else
          let scored := calculateAssociationStrength fuzzScore targetEvents
            candEvents targetBirth targetDeath
            (getLifespan g candId).1 (getLifespan g candId).2
          if decide (0 < scored.1) && !scored.2.1.isEmpty then
            scoreCandidates fuzzScore g targetEvents targetBirth targetDeath
              startYear endYear excludeRelatives relatives rest
              (assocs ++ [AssociateEntry.mk candId (fullName cand)
                cand.birthDate cand.deathDate scored.1
                (scored.2.1.take 5) scored.2.2 isRel], scanned, filtered)
          else
            scoreCandidates fuzzScore g targetEvents targetBirth targetDeath
              startYear endYear excludeRelatives relatives rest
              (assocs, scanned, filtered)

/-- `associates._find_associates`, parameterized by the external fuzzy
scorer.  The `relatives` set is only built when `exclude_relatives` is set;
otherwise it stays empty and `is_relative` is computed against the empty
set. -/
def findAssociates (fuzzScore : String → String → ℚ) (g : Graph)
    (individualId : String) (place : Option String)
    (startYear endYear : Option Nat) (excludeRelatives : Bool)
    (maxResults : Nat) : AssociatesResult :=
  let maxResults := min maxResults 200
  let lookupId := normalizeLookupId individualId
  match alookup g.individuals lookupId with
  | none =>
    { individual := none, resultCount := 0, associates := [],
      candidatesScanned := 0, relativesFiltered := 0,
      error := some "Individual not found" }
  | some indi =>
    let targetBirth := (getLifespan g lookupId).1
    let targetDeath := (getLifespan g lookupId).2
    let targetEvents := applyDateFilter startYear endYear
      (getEventsWithPlaces g lookupId)
    if targetEvents.isEmpty then
      { individual := some { id := lookupId, name := some (fullName indi) },
        resultCount := 0, associates := [], candidatesScanned := 0,
        relativesFiltered := 0,
        error := some "No events with places found for this individual" }
    else
      let targetPlaces0 := dedupAppend [] (targetEvents.map (·.placeNormalized))
      let targetPlaces :=
        match presentId place with
        | some pl => targetPlaces0.filter
            (fun p => placesMatch fuzzScore p (normalizePlaceString pl) 80)
        | none => targetPlaces0
      if (presentId place).isSome && targetPlaces.isEmpty then
        { individual := some { id := lookupId, name := some (fullName indi) },
          resultCount := 0, associates := [], candidatesScanned := 0,
          relativesFiltered := 0,
          error := some ("No events found matching place filter: " ++
            (presentId place).getD "") }
      else
        let candidateIds := (getCandidateIdsByPlace fuzzScore g targetPlaces
          place).filter (fun c => c ≠ lookupId)
        let relatives :=
          if excludeRelatives then buildRelativeSet g lookupId 5 else []
        let scored := scoreCandidates fuzzScore g targetEvents targetBirth
          targetDeath startYear endYear excludeRelatives relatives
          candidateIds ([], 0, 0)
        let sortedAssociates := (stableSortBy
          (fun a b => decide (b.associationStrength ≤ a.associationStrength))
          scored.1).take maxResults
        { individual := some { id := lookupId, name := some (fullName indi) },
          resultCount := sortedAssociates.length,
          associates := sortedAssociates,
          candidatesScanned := scored.2.1,
          relativesFiltered := scored.2.2 }

/-- Associates graph: A and B are spouses (family FA), both with 1900
births in Springfield, so B is in A's relative set yet overlaps A in time
and place. -/
def iAsc : Individual :=
  { id := "@A@", givenName := "Ann", birthDate := some "1 JAN 1900",
    birthPlace := some "Springfield", familiesAsSpouse := ["@FA@"] }

def iBsc : Individual :=
  { id := "@B@", givenName := "Bob", birthDate := some "5 MAY 1900",
    birthPlace := some "Springfield", familiesAsSpouse := ["@FA@"] }

def assocG : Graph :=
  { individuals := [("@A@", iAsc), ("@B@", iBsc)],
    families :=
      [("@FA@", { id := "@FA@", husbandId := some "@A@", wifeId := some "@B@" })],
    placeIndex := [("springfield", ["@A@", "@B@"])] }

example : buildRelativeSet assocG "@A@" 5 = ["@A@", "@B@"] := by decide

/-- The zero fuzzy scorer: only exact/substring place matches fire. -/
def fuzzZero : String → String → ℚ := fun _ _ => 0

example : getCandidateIdsByPlace fuzzZero assocG ["springfield"] none =
    ["@A@", "@B@"] := by decide

example : (calculateAssociationStrength fuzzZero (getEventsWithPlaces assocG "@A@")
    (getEventsWithPlaces assocG "@B@") (some 1900) none (some 1900) none).1 =
    450 := by decide

example : ((findAssociates fuzzZero assocG "A" none none none false 50).associates.map
    (fun a => (a.id, a.isRelative))) = [("@B@", false)] := by decide

example : (findAssociates fuzzZero assocG "A" none none none true 50).associates = [] ∧
    (findAssociates fuzzZero assocG "A" none none none true 50).relativesFiltered = 1 := by
  decide

/-- Every entry the scoring loop emits is tagged with `cand_id in relatives`
for the `relatives` list the loop was given, and an entry can only be
emitted when the exclude-and-relative skip did not fire. -/
theorem scoreCandidates_isRelative (fuzzScore : String → String → ℚ) (g : Graph)
    (targetEvents : List PlacedEvent) (tb td sy ey : Option Nat)
    (excludeRelatives : Bool) (relatives : List String) :
    ∀ (cands : List String) (acc : List AssociateEntry × Nat × Nat),
      (∀ a ∈ acc.1, a.isRelative = relatives.contains a.id ∧
        (excludeRelatives = true → a.isRelative = false)) →
      ∀ a ∈ (scoreCandidates fuzzScore g targetEvents tb td sy ey
          excludeRelatives relatives cands acc).1,
        a.isRelative = relatives.contains a.id ∧
          (excludeRelatives = true → a.isRelative = false) := by
  intro cands
  induction cands with
  | nil =>
    intro acc hacc a ha
    rw [scoreCandidates] at ha
    exact hacc a ha
  | cons candId rest ih =>
    intro acc hacc a ha
    simp only [scoreCandidates] at ha
    split at ha
    · refine ih _ ?_ a ha
      intro a' ha'
      exact hacc a' ha'
    · next hskip =>
      split at ha
      · refine ih _ ?_ a ha
        intro a' ha'
        exact hacc a' ha'
      · split at ha
        · refine ih _ ?_ a ha
          intro a' ha'
          exact hacc a' ha'
        · split at ha
          · refine ih _ ?_ a ha
            intro a' ha'
            rcases List.mem_append.mp ha' with h | h
            · exact hacc a' h
            · obtain rfl := List.mem_singleton.mp h
              refine ⟨rfl, ?_⟩
              intro hex
              subst hex
              simpa using hskip
          · refine ih _ ?_ a ha
            intro a' ha'
            exact hacc a' ha'

/-- The `is_relative` flag of every returned associate is membership in the
relatives list the call actually used: the built set when
`exclude_relatives` is set, the empty set otherwise. -/
theorem findAssociates_isRelative (fuzzScore : String → String → ℚ) (g : Graph)
    (idA : String) (place : Option String) (sy ey : Option Nat) (ex : Bool)
    (mr : Nat) :
    ∀ a ∈ (findAssociates fuzzScore g idA place sy ey ex mr).associates,
      a.isRelative =
        (if ex then buildRelativeSet g (normalizeLookupId idA) 5 else []).contains a.id ∧
        (ex = true → a.isRelative = false) := by
  intro a ha
  simp only [findAssociates] at ha
  split at ha
  · simp at ha
  · split at ha
    · simp at ha
    · split at ha
      · simp at ha
      · dsimp only at ha
        have h2 := (stableSortBy_perm
          (fun a b : AssociateEntry =>
            decide (b.associationStrength ≤ a.associationStrength)) _).mem_iff.1
          (List.mem_of_mem_take ha)
        exact scoreCandidates_isRelative fuzzScore g _ _ _ sy ey ex _ _ _
          (fun a' ha' => absurd ha' (List.not_mem_nil a')) a h2

set_option maxRecDepth 4000 in
/-- Claim C10, counterexample: with `exclude_relatives=False` the relatives
set is never built (`relatives = set()`), so A's spouse B - a member of
`_build_relative_set(A)` - is returned as an associate tagged
`is_relative = false`, not `true` as claimed. -/
theorem claim_C10_counterexample :
    ∃ a ∈ (findAssociates fuzzZero assocG "A" none none none false 50).associates,
      a.id ∈ buildRelativeSet assocG (normalizeLookupId "A") 5 ∧
        a.isRelative = false := by decide

/-- Claim C10 (amended): when `exclude_relatives` is true no member of the
relatives set appears among the returned associates (and all returned
entries have `is_relative = false`, since survivors are exactly the
non-relatives); when `exclude_relatives` is false the relatives set is not
built and every returned entry - including actual relatives - carries
`is_relative = false`. -/
theorem claim_C10_relative_exclusion (fuzzScore : String → String → ℚ)
    (g : Graph) (idA : String) (place : Option String) (sy ey : Option Nat)
    (mr : Nat) :
    (∀ a ∈ (findAssociates fuzzScore g idA place sy ey true mr).associates,
        a.id ∉ buildRelativeSet g (normalizeLookupId idA) 5 ∧
          a.isRelative = false) ∧
    (∀ a ∈ (findAssociates fuzzScore g idA place sy ey false mr).associates,
        a.isRelative = false) := by
  constructor
  · intro a ha
    obtain ⟨heq, himp⟩ :=
      findAssociates_isRelative fuzzScore g idA place sy ey true mr a ha
    have hfalse := himp rfl
    rw [if_pos rfl] at heq
    refine ⟨?_, hfalse⟩
    intro hmem
    rw [hfalse] at heq
    have : (buildRelativeSet g (normalizeLookupId idA) 5).contains a.id = true := by
      simpa [List.contains] using List.elem_iff.mpr hmem
    rw [this] at heq
    cases heq
  · intro a ha
    obtain ⟨heq, -⟩ :=
      findAssociates_isRelative fuzzScore g idA place sy ey false mr a ha
    simpa using heq

set_option maxRecDepth 4000 in
theorem claim_C10_witness :
    (∀ a ∈ (findAssociates fuzzZero assocG "A" none none none true 50).associates,
        a.id ∉ buildRelativeSet assocG (normalizeLookupId "A") 5 ∧
          a.isRelative = false) ∧
    (∀ a ∈ (findAssociates fuzzZero assocG "A" none none none false 50).associates,
        a.isRelative = false) :=
  claim_C10_relative_exclusion fuzzZero assocG "A" none none none 50

theorem claim_C8_witness :
    (["@X@", "@P1@", "@G@"] : List String) ≠ ["@X@", "@P2@", "@G@"] ∧
    ((∃ cp ∈ (detectPedigreeCollapse collapseG "X" 10).collapsePoints,
        cp.ancestorId = "@G@" ∧
        cp.occurrenceCount =
          ([["@X@", "@P1@", "@G@"], ["@X@", "@P2@", "@G@"]] : List (List String)).length ∧
        cp.paths = [["@X@", "@P1@", "@G@"], ["@X@", "@P2@", "@G@"]] ∧
        cp.generations =
          ([["@X@", "@P1@", "@G@"], ["@X@", "@P2@", "@G@"]] : List (List String)).map
            (fun p => p.length - 1)) ∧
      List.Pairwise (fun a b => b.occurrenceCount ≤ a.occurrenceCount)
        (detectPedigreeCollapse collapseG "X" 10).collapsePoints) :=
  ⟨by decide,
   claim_C8_pedigree_collapse collapseG "X" 10 iXan (by decide) "@G@"
     [["@X@", "@P1@", "@G@"], ["@X@", "@P2@", "@G@"]] (by decide) (by decide)⟩

end GedcomServer
